import Mathlib

/-!
Shallow embedding of the ycng signaling core: the session manager
(`src/session_manager/session_manager.go`) and the uplink metrics engine
(`src/relay/metrics.go`).  Machine integers are modelled as `Nat` bit
patterns with explicit `% 2^w` where overflow matters; Go map lookups of
pointer values that may be nil are modelled with `Option`, and a nil
pointer dereference (which panics in Go) is modelled by propagating
`none` out of the handler.
-/

/-- The all-ones 64-bit identifier `SessionManagerUserId`. -/
def SessionManagerUserId : Nat := 0xffffffffffffffff

/-- Signal kinds (`YCKCallSignalType...` constants). `endCall` stands for
`YCKCallSignalTypeEnd`. -/
inductive YCKCallSignalType where
  | sidRequest | sidCreated | invite | cancel | accept | reject
  | busy | ring | endCall | memberOp | memberState
deriving DecidableEq, Repr

/-- Session modes (`YCKCallMode...`). -/
inductive YCKCallMode where
  | undecided | oneToOne | multiple
deriving DecidableEq, Repr

/-- Participant states (`YCKParticipantState...`). -/
inductive YCKParticipantState where
  | idle | calling | called | incall
deriving DecidableEq, Repr

/-- Participant events (`YCKParticipantEvent...`). `endEv` stands for
`YCKParticipantEventEnd`. -/
inductive YCKParticipantEvent where
  | invite | recvInvite | cancel | recvCancel | accept | recvAccept
  | reject | recvReject | busy | recvBusy | endEv | recvEnd
deriving DecidableEq, Repr

/-- Modelled from the spec: the `Signal` JSON envelope (signal codec is not
under `src/`).  §3: kind, `From`, `To`, `SessionId` (zero means
unassigned) and a free-form `Info` map.  Only the `Info` entries the
session manager reads are modelled: `op` (a string, `none` when absent or
not a string), `members` (an array of numeric tokens, each `some n` when
`strconv.ParseUint` succeeds and `none` when it fails, the whole field
`none` when absent or not an array), and the outbound `state` map built
for MemberState fan-out. -/
structure Signal where
  Signal : YCKCallSignalType
  From : Nat
  To : Nat
  SessionId : Nat
  InfoOp : Option String := none
  InfoMembers : Option (List (Option Nat)) := none
  InfoState : Option (List (String × YCKParticipantState × Option YCKParticipantEvent)) := none
deriving DecidableEq, Repr

/-- Modelled from the spec: `NewSignal(signal, from, to, sid)` of the
signal codec builds an envelope with an empty `Info`. -/
def NewSignal (k : YCKCallSignalType) (f t sid : Nat) : Signal :=
  { Signal := k, From := f, To := t, SessionId := sid }

/-- Modelled from the spec: the `Participant` record (§3), whose type is
not under `src/`: `Uid`, `State`, `Event` (last event applied, none
initially). -/
structure Participant where
  Uid : Nat
  State : YCKParticipantState
  Event : Option YCKParticipantEvent
deriving DecidableEq, Repr

/-- Modelled from the spec: `NewParticipant(uid)` starts in state Idle
(§4.4 "Initial: Idle") with no event applied yet. -/
def NewParticipant (uid : Nat) : Participant :=
  { Uid := uid, State := .idle, Event := none }

/-- A `Session` record: `Sid`, `Mode` and the participant table, modelled
as an association list keyed by user id (Go `map[uint64]*Participant`). -/
structure Session where
  Sid : Nat
  Mode : YCKCallMode
  Participants : List (Nat × Participant)
deriving DecidableEq, Repr

/-- Modelled from the spec: `NewSession(sid)` initialises Mode=Undecided
and an empty participant map (§4.3 `create`). -/
def NewSession (sid : Nat) : Session :=
  { Sid := sid, Mode := .undecided, Participants := [] }

/-- Go map read `m[k]`: `nil` for a missing key becomes `none`. -/
def lookupA {α : Type} : List (Nat × α) → Nat → Option α
  | [], _ => none
  | (k, v) :: rest, key => if k = key then some v else lookupA rest key

/-- Go map write `m[k] = v`: replace the entry if the key is present,
append otherwise. -/
def insertA {α : Type} : List (Nat × α) → Nat → α → List (Nat × α)
  | [], key, v => [(key, v)]
  | (k, w) :: rest, key, v =>
      if k = key then (k, v) :: rest else (k, w) :: insertA rest key v

/-- The on-demand creation idiom `if p == nil { p = NewParticipant(uid);
m[uid] = p }`. -/
def ensureP (parts : List (Nat × Participant)) (uid : Nat) :
    List (Nat × Participant) :=
  match lookupA parts uid with
  | some _ => parts
  | none => insertA parts uid (NewParticipant uid)

/-- `p.SetState(s)` through a pointer that may be nil: `none` models the
nil-pointer panic, otherwise the entry is updated in place. -/
def setPState (parts : List (Nat × Participant)) (uid : Nat)
    (s : YCKParticipantState) : Option (List (Nat × Participant)) :=
  match lookupA parts uid with
  | some p => some (insertA parts uid { p with State := s })
  | none => none

/-- `p.SetEvent(e)` through a pointer that may be nil (see `setPState`). -/
def setPEvent (parts : List (Nat × Participant)) (uid : Nat)
    (e : YCKParticipantEvent) : Option (List (Nat × Participant)) :=
  match lookupA parts uid with
  | some p => some (insertA parts uid { p with Event := some e })
  | none => none

/-- `p.SetState`/`p.SetEvent` through a pointer the Go code has already
established to be non-nil (the entry is present); absent keys are left
untouched. -/
def updEntry (parts : List (Nat × Participant)) (uid : Nat)
    (f : Participant → Participant) : List (Nat × Participant) :=
  match lookupA parts uid with
  | some p => insertA parts uid (f p)
  | none => parts

/-- An outbound relay message built by
`relay.NewMessage(UdpMessageTypeUserSignal, SessionManagerUserId, to, 0,
payload, nil)`; the marshalled payload is kept as the `Signal` itself
(the signal codec, which is not under `src/`, is modelled as total per
§4.1/§7). -/
structure OutMsg where
  MFrom : Nat
  MTo : Nat
  Payload : Signal
deriving DecidableEq, Repr

/-- Shorthand for the only outbound message shape the session manager
builds: `relay.NewMessage(UdpMessageTypeUserSignal, SessionManagerUserId,
to, 0, marshal p, nil)`. -/
def mkOut (dst : Nat) (p : Signal) : OutMsg :=
  { MFrom := SessionManagerUserId, MTo := dst, Payload := p }

/-- Modelled from the spec: the LRU dedup cache (`utils.LRU`, not under
`src/`), §4.2: bounded capacity 100, keys in insertion order (most recent
first), `contains` is a read without refresh. -/
def lruContains (keys : List String) (k : String) : Bool :=
  keys.contains k

/-- Modelled from the spec: `add(key, value)` of `utils.LRU` (§4.2): if
present, update the value only; else insert, evicting the
least-recently-added entry when full (capacity 100). -/
def lruAdd (keys : List String) (k : String) : List String :=
  if keys.contains k then keys else (k :: keys).take 100

/-- The 1-1 transition switch of `handleMessageUserSignal`
(session_manager.go lines 249-305).  `pf`/`pt` are the participants at
`From`/`To`; Invite creates both ends on demand; the other five kinds
guard only on `pf` and dereference `pt` unconditionally inside the guard,
so a missing `pt` there is a nil-pointer panic (`none`). -/
def trans11 (parts0 : List (Nat × Participant)) (sg : Signal) :
    Option (List (Nat × Participant)) :=
  match sg.Signal with
  | .invite =>
      let parts := ensureP parts0 sg.From
      let parts := ensureP parts sg.To
      match lookupA parts sg.From with
      | some pf =>
          if pf.State = .idle then do
            let parts ← setPState parts sg.From .calling
            let parts ← setPState parts sg.To .called
            let parts ← setPEvent parts sg.From .invite
            let parts ← setPEvent parts sg.To .recvInvite
            some parts
          else some parts
      | none => some parts
  | .cancel =>
      match lookupA parts0 sg.From with
      | some pf =>
          if pf.State = .calling ∨ pf.State = .incall then do
            let parts ← setPState parts0 sg.From .idle
            let parts ← setPState parts sg.To .idle
            let parts ← setPEvent parts sg.From .cancel
            let parts ← setPEvent parts sg.To .recvCancel
            some parts
          else some parts0
      | none => some parts0
  | .accept =>
      match lookupA parts0 sg.From with
      | some pf =>
          if pf.State = .called then do
            let parts ← setPState parts0 sg.From .incall
            let parts ← setPState parts sg.To .incall
            let parts ← setPEvent parts sg.From .accept
            let parts ← setPEvent parts sg.To .recvAccept
            some parts
          else some parts0
      | none => some parts0
  | .reject =>
      match lookupA parts0 sg.From with
      | some pf =>
          if pf.State = .called then do
            let parts ← setPState parts0 sg.From .idle
            let parts ← setPState parts sg.To .idle
            let parts ← setPEvent parts sg.From .reject
            let parts ← setPEvent parts sg.To .recvReject
            some parts
          else some parts0
      | none => some parts0
  | .busy =>
      match lookupA parts0 sg.From with
      | some pf =>
          if pf.State = .called then do
            let parts ← setPState parts0 sg.From .idle
            let parts ← setPState parts sg.To .idle
            let parts ← setPEvent parts sg.From .busy
            let parts ← setPEvent parts sg.To .recvBusy
            some parts
          else some parts0
      | none => some parts0
  | .endCall =>
      match lookupA parts0 sg.From with
      | some _ => do
          let parts ← setPState parts0 sg.From .idle
          let parts ← setPState parts sg.To .idle
          let parts ← setPEvent parts sg.From .endEv
          let parts ← setPEvent parts sg.To .recvEnd
          some parts
      | none => some parts0
  | _ => some parts0

/-- One step of the MemberOp "invite" loop (session_manager.go lines
385-413): parse failures are skipped; the target is created on demand;
only an Idle target transitions to Called/RecvInvite and receives an
Invite signal. -/
def memberOpInvite (sid : Nat)
    (acc : List (Nat × Participant) × List OutMsg) (v : Option Nat) :
    List (Nat × Participant) × List OutMsg :=
  match v with
  | none => acc
  | some mem =>
      let parts := ensureP acc.1 mem
      match lookupA parts mem with
      | some p =>
          if p.State = .idle then
            let parts := updEntry parts mem (fun q => { q with State := .called })
            let parts := updEntry parts mem (fun q => { q with Event := some .recvInvite })
            (parts, acc.2 ++ [mkOut mem (NewSignal .invite SessionManagerUserId mem sid)])
          else (parts, acc.2)
      | none => (parts, acc.2)

/-- One step of the MemberOp "kick" loop (session_manager.go lines
415-441): the target is created on demand; only an Incall target
transitions to Idle/RecvEnd and receives an End signal. -/
def memberOpKick (sid : Nat)
    (acc : List (Nat × Participant) × List OutMsg) (v : Option Nat) :
    List (Nat × Participant) × List OutMsg :=
  match v with
  | none => acc
  | some mem =>
      let parts := ensureP acc.1 mem
      match lookupA parts mem with
      | some p =>
          if p.State = .incall then
            let parts := updEntry parts mem (fun q => { q with State := .idle })
            let parts := updEntry parts mem (fun q => { q with Event := some .recvEnd })
            (parts, acc.2 ++ [mkOut mem (NewSignal .endCall SessionManagerUserId mem sid)])
          else (parts, acc.2)
      | none => (parts, acc.2)

/-- The multi-party branch of `handleMessageUserSignal`
(session_manager.go lines 306-451), entered when `To =
SessionManagerUserId` and the OneToOne/non-MemberOp check has passed:
promote an Undecided session to Multiple, then apply the kind switch.
Returns the updated session and the outbound messages the switch emitted
(the fan-out is appended by the caller). -/
def handleMulti (sess0 : Session) (sg : Signal) : Session × List OutMsg :=
  let sess := if sess0.Mode = .undecided then { sess0 with Mode := .multiple } else sess0
  match sg.Signal with
  | .invite =>
      let parts := ensureP sess.Participants sg.From
      match lookupA parts sg.From with
      | some pf =>
          if pf.State = .idle then
            let parts := updEntry parts sg.From (fun q => { q with State := .calling })
            let parts := updEntry parts sg.From (fun q => { q with Event := some .invite })
            let outs := [mkOut sg.From (NewSignal .ring SessionManagerUserId sg.From sess.Sid),
                         mkOut sg.From (NewSignal .accept SessionManagerUserId sg.From sess.Sid)]
            let parts := updEntry parts sg.From (fun q => { q with State := .incall })
            let parts := updEntry parts sg.From (fun q => { q with Event := some .recvAccept })
            ({ sess with Participants := parts }, outs)
          else ({ sess with Participants := parts }, [])
      | none => ({ sess with Participants := parts }, [])
  | .cancel =>
      match lookupA sess.Participants sg.From with
      | some pf =>
          if pf.State = .calling ∨ pf.State = .incall then
            let parts := updEntry sess.Participants sg.From (fun q => { q with State := .idle })
            let parts := updEntry parts sg.From (fun q => { q with Event := some .cancel })
            ({ sess with Participants := parts }, [])
          else (sess, [])
      | none => (sess, [])
  | .endCall =>
      match lookupA sess.Participants sg.From with
      | some _ =>
          let parts := updEntry sess.Participants sg.From (fun q => { q with State := .idle })
          let parts := updEntry parts sg.From (fun q => { q with Event := some .endEv })
          ({ sess with Participants := parts }, [])
      | none => (sess, [])
  | .accept =>
      match lookupA sess.Participants sg.From with
      | some pf =>
          if pf.State = .called then
            let parts := updEntry sess.Participants sg.From (fun q => { q with State := .incall })
            let parts := updEntry parts sg.From (fun q => { q with Event := some .accept })
            ({ sess with Participants := parts }, [])
          else (sess, [])
      | none => (sess, [])
  | .reject =>
      match lookupA sess.Participants sg.From with
      | some pf =>
          if pf.State = .called then
            let parts := updEntry sess.Participants sg.From (fun q => { q with State := .idle })
            let parts := updEntry parts sg.From (fun q => { q with Event := some .reject })
            ({ sess with Participants := parts }, [])
          else (sess, [])
      | none => (sess, [])
  | .busy =>
      match lookupA sess.Participants sg.From with
      | some pf =>
          if pf.State = .called then
            let parts := updEntry sess.Participants sg.From (fun q => { q with State := .idle })
            let parts := updEntry parts sg.From (fun q => { q with Event := some .busy })
            ({ sess with Participants := parts }, [])
          else (sess, [])
      | none => (sess, [])
  | .memberOp =>
      let sess := if sess.Mode = .oneToOne then { sess with Mode := .multiple } else sess
      match sg.InfoOp, sg.InfoMembers with
      | some op, some members =>
          if op = "invite" then
            let r := members.foldl (memberOpInvite sess.Sid) (sess.Participants, [])
            ({ sess with Participants := r.1 }, r.2)
          else if op = "kick" then
            let r := members.foldl (memberOpKick sess.Sid) (sess.Participants, [])
            ({ sess with Participants := r.1 }, r.2)
          else (sess, [])
      | _, _ => (sess, [])
  | _ => (sess, [])

/-- The per-participant state map built for the MemberState fan-out
(session_manager.go lines 454-462): decimal-string uid to
`{state, event}`. -/
def stateInfo (parts : List (Nat × Participant)) :
    List (String × YCKParticipantState × Option YCKParticipantEvent) :=
  parts.map (fun kv => (Nat.repr kv.2.Uid, kv.2.State, kv.2.Event))

/-- The MemberState fan-out (session_manager.go lines 453-474): one
signal per participant, each carrying the full state map. -/
def fanout (sid : Nat) (parts : List (Nat × Participant)) : List OutMsg :=
  parts.map (fun kv =>
    mkOut kv.2.Uid
      { Signal := .memberState, From := SessionManagerUserId, To := kv.2.Uid,
        SessionId := sid, InfoState := some (stateInfo parts) })

/-- Modelled from the spec: §9 "Randomness", the pseudo-random 64-bit
source behind `rand.Uint64()` is injectable; it is modelled as the list
of values it will return.  The Sid allocation loop (session_manager.go
lines 197-203) draws until the value is absent from the registry; `none`
models exhausting the modelled source (the Go loop would keep drawing). -/
def allocSid : List Nat → List (Nat × Session) → Option (Nat × List Nat)
  | [], _ => none
  | r :: rs, sessions =>
      if lookupA sessions r = none then some (r, rs) else allocSid rs sessions

/-- The session manager state the handler mutates: the session registry,
the dedup cache keys and the modelled random source. -/
structure SMState where
  sessions : List (Nat × Session)
  dedup : List String
  rng : List Nat
deriving DecidableEq, Repr

/-- An inbound signaling packet: the raw payload bytes (dedup key) and
the result of unmarshalling them (`none` models a JSON decode error).
Identical payload bytes unmarshal identically, so one value stands for
one payload. -/
structure Packet where
  Payload : String
  Sig : Option Signal
deriving DecidableEq, Repr

/-- `handleMessageUserSignal` (session_manager.go lines 169-476): dedup,
unmarshal, SidRequest allocation, sanity checks, then the 1-1 or
multi-party branch; `none` models a panic that kills the process. -/
def handleMessageUserSignal (st0 : SMState) (pkt : Packet) :
    Option (SMState × List OutMsg) :=
  if lruContains st0.dedup pkt.Payload then some (st0, [])
  else
    let st := { st0 with dedup := lruAdd st0.dedup pkt.Payload }
    match pkt.Sig with
    | none => some (st, [])
    | some sg =>
        if sg.Signal = .sidRequest then
          match allocSid st.rng st.sessions with
          | none => none
          | some (sid, rng') =>
              let st' := { st with sessions := insertA st.sessions sid (NewSession sid), rng := rng' }
              some (st', [mkOut sg.From (NewSignal .sidCreated SessionManagerUserId sg.From sid)])
        else if sg.SessionId = 0 then some (st, [])
        else
          match lookupA st.sessions sg.SessionId with
          | none => some (st, [])
          | some session =>
              if sg.To ≠ SessionManagerUserId then
                if session.Mode = .multiple then some (st, [])
                else
                  let session := { session with Mode := .oneToOne }
                  match trans11 session.Participants sg with
                  | none => none
                  | some parts =>
                      let sess' := { session with Participants := parts }
                      some ({ st with sessions := insertA st.sessions sg.SessionId sess' },
                            [mkOut sg.To sg])
              else
                if session.Mode = .oneToOne ∧ sg.Signal ≠ .memberOp then some (st, [])
                else
                  let r := handleMulti session sg
                  some ({ st with sessions := insertA st.sessions sg.SessionId r.1 },
                        r.2 ++ fanout r.1.Sid r.1.Participants)

/-- Deliver a list of packets in order; a panic (`none`) kills the run. -/
def runMsgs : SMState → List Packet → Option SMState
  | st, [] => some st
  | st, p :: ps =>
      match handleMessageUserSignal st p with
      | none => none
      | some (st', _) => runMsgs st' ps

/-- The number of packets of the list that actually insert their payload
into the dedup cache (the "unique" ones, not already cached on arrival)
when delivered from the given state. -/
def addsCount : SMState → List Packet → Nat
  | _, [] => 0
  | st, p :: ps =>
      let c := if lruContains st.dedup p.Payload then 0 else 1
      match handleMessageUserSignal st p with
      | none => c
      | some (st', _) => c + addsCount st' ps

/-- The guard column of the 1-1 transition table (§4.4, session_manager.go
lines 252-305): whether the signal's transition fires on the given
participant table.  Invite fires when the originator is absent (created
Idle) or Idle; kinds outside the table never fire. -/
def guard11 (parts : List (Nat × Participant)) (sg : Signal) : Bool :=
  match sg.Signal with
  | .invite =>
      match lookupA parts sg.From with
      | some pf => decide (pf.State = .idle)
      | none => true
  | .cancel =>
      match lookupA parts sg.From with
      | some pf => decide (pf.State = .calling ∨ pf.State = .incall)
      | none => false
  | .accept =>
      match lookupA parts sg.From with
      | some pf => decide (pf.State = .called)
      | none => false
  | .reject =>
      match lookupA parts sg.From with
      | some pf => decide (pf.State = .called)
      | none => false
  | .busy =>
      match lookupA parts sg.From with
      | some pf => decide (pf.State = .called)
      | none => false
  | .endCall => (lookupA parts sg.From).isSome
  | _ => false

/-- The mode partial order of the spec (§3): reflexivity plus the three
allowed moves Undecided → OneToOne, Undecided → Multiple,
OneToOne → Multiple. -/
def ModeLe (a b : YCKCallMode) : Prop :=
  a = b ∨ (a = .undecided ∧ b = .oneToOne) ∨ (a = .undecided ∧ b = .multiple) ∨
    (a = .oneToOne ∧ b = .multiple)

instance (a b : YCKCallMode) : Decidable (ModeLe a b) := by
  unfold ModeLe; infer_instance

/-! ## Uplink metrics engine (src/relay/metrics.go) -/

/-- `StatBufferSize` (metrics.go line 16). -/
def StatBufferSize : Nat := 120

/-- One buffered sample (`UmsgStat`): `tseq` and `bytes` are kept as
16-bit patterns (`Nat < 65536`), `timestamp` in nanoseconds. -/
structure UmsgStat where
  paired : Bool
  tid : Nat
  tseq : Nat
  bytes : Nat
  timestamp : Int
deriving DecidableEq, Repr, Inhabited

/-- The metrics state: the 120-entry sample buffer (a list of fixed
length 120), write position and the two pacing timestamps. -/
structure Metrics where
  stat : List UmsgStat
  pos : Nat
  lastTimestamp : Int
  lastTimestampRTT : Int
deriving DecidableEq, Repr

/-- `NewMetrics()` with the construction time injected (Go uses
`time.Now().UnixNano()`): zeroed buffer, `pos = 0`. -/
def NewMetrics (now : Int) : Metrics :=
  { stat := List.replicate StatBufferSize default, pos := 0,
    lastTimestamp := now, lastTimestampRTT := now }

/-- The Go int16 subtraction `a - b` on 16-bit patterns: the result
pattern of the wrapping difference. -/
def sub16 (a b : Nat) : Nat := (a % 65536 + 65536 - b % 65536) % 65536

/-- `int16(d) > 0` on a 16-bit pattern. -/
def pos16 (d : Nat) : Bool := decide (0 < d ∧ d < 32768)

/-- `int16(d) < 0` on a 16-bit pattern. -/
def neg16 (d : Nat) : Bool := decide (32768 ≤ d)

/-- The signed value of a 16-bit pattern. -/
def toInt16 (x : Nat) : Int :=
  if x % 65536 < 32768 then (x % 65536 : Int) else (x % 65536 : Int) - 65536

/-- The fields of `relay.Message` the metrics engine reads: `Tid`,
`Tseq` (16-bit pattern), the 16-bit media `Timestamp`, and the value of
`NetTrafficSize()` (the codec itself is out of scope, §4.1). -/
structure UMsg where
  Tid : Nat
  Tseq : Nat
  Timestamp : Nat
  size : Nat
deriving DecidableEq, Repr

/-- The mutable locals of the window-closure loop of `Process`
(metrics.go lines 57-106) together with the buffer whose `paired` flags
the loop mutates. -/
structure ScanAcc where
  minSeq : Nat
  maxSeq : Nat
  packetDup : Int
  accPairs : Int
  accBytes : Nat
  accTimes : Int
  totalBytes : Int
  buf : List UmsgStat
deriving DecidableEq, Repr

/-- The inner pairing loop of the closure (metrics.go lines 83-105),
scanning `fuel` successors starting at index `q`: the first same-`tseq`
match of an unpaired `u1` is consumed as a pair (and the loop breaks);
for an already-paired `u1`, unpaired matches count as duplicates.  The
`tid` consistency check only logs.  `accBytes` is a `uint32` and wraps. -/
def innerScan (u1 : UmsgStat) : Nat → Nat → ScanAcc → ScanAcc
  | _, 0, acc => acc
  | q, fuel + 1, acc =>
      let s := acc.buf.getD q default
      if u1.tseq = s.tseq then
        if u1.paired = false then
          { acc with buf := acc.buf.set q { s with paired := true },
                     accPairs := acc.accPairs + 1,
                     accBytes := (acc.accBytes + s.bytes) % 4294967296,
                     accTimes := acc.accTimes + (s.timestamp - u1.timestamp) }
        else if s.paired = false then
          innerScan u1 (q + 1) fuel
            { acc with buf := acc.buf.set q { s with paired := true },
                       packetDup := acc.packetDup + 1 }
        else innerScan u1 (q + 1) fuel acc
      else innerScan u1 (q + 1) fuel acc

/-- The first half of one outer-loop iteration at index `p` (metrics.go
lines 66-81): accumulate `totalBytes` and update `minSeq`/`maxSeq` with
signed-16-bit wraparound comparisons ((0,0) meaning uninitialised;
`maxSeq` is compared and updated before `minSeq`). -/
def scanAcc2 (acc0 : ScanAcc) (p : Nat) : ScanAcc :=
  let u1 := acc0.buf.getD p default
  let acc1 := { acc0 with totalBytes := acc0.totalBytes + (u1.bytes : Int) }
  if acc1.minSeq = 0 ∧ acc1.maxSeq = 0 then
    { acc1 with minSeq := u1.tseq, maxSeq := u1.tseq }
  else
    let accM := if pos16 (sub16 u1.tseq acc1.maxSeq) then { acc1 with maxSeq := u1.tseq } else acc1
    if neg16 (sub16 u1.tseq accM.minSeq) then { accM with minSeq := u1.tseq } else accM

/-- One full iteration of the outer closure loop at index `p` (metrics.go
lines 66-105): `scanAcc2` followed by the pairing scan over at most 9
successors. -/
def scanStep (posN : Nat) (acc0 : ScanAcc) (p : Nat) : ScanAcc :=
  innerScan (acc0.buf.getD p default) (p + 1) (min (p + 10) posN - (p + 1)) (scanAcc2 acc0 p)

/-- The closure loop over positions `0 ≤ p < posN` with zeroed
accumulators (metrics.go lines 57-106). -/
def scanLoop (posN : Nat) (buf : List UmsgStat) : ScanAcc :=
  (List.range posN).foldl (scanStep posN)
    { minSeq := 0, maxSeq := 0, packetDup := 0, accPairs := 0,
      accBytes := 0, accTimes := 0, totalBytes := 0, buf := buf }

/-- The min/max update of one outer-loop iteration on 16-bit patterns
(metrics.go lines 70-81), extracted from `scanStep`: `(0, 0)` is
uninitialised, `maxSeq` is compared (and updated) before `minSeq`, and
both comparisons are signs of wrapping int16 differences. -/
def minMaxStepCode (mm : Nat × Nat) (t : Nat) : Nat × Nat :=
  if mm.1 = 0 ∧ mm.2 = 0 then (t, t)
  else ((if neg16 (sub16 t mm.1) then t else mm.1),
        (if pos16 (sub16 t mm.2) then t else mm.2))

/-- The `(minSeq, maxSeq)` pair the closure loop computes over a list of
`tseq` patterns. -/
def minMaxCode (ts : List Nat) : Nat × Nat := ts.foldl minMaxStepCode (0, 0)

/-- `packetShould := 2*(maxSeq-minSeq)` in int16 arithmetic, zeroed when
negative or when `(minSeq, maxSeq)` is uninitialised (metrics.go lines
112-115); the result is the (nonnegative) 16-bit pattern. -/
def packetShouldOf (minSeq maxSeq : Nat) : Nat :=
  let ps := (2 * sub16 maxSeq minSeq) % 65536
  if neg16 ps ∨ (minSeq = 0 ∧ maxSeq = 0) then 0 else ps

/-- Modelled from the spec: `UdpMessageExtraTypeMetrix` is a relay
constant not under `src/`; its numeric value is unspecified and unused by
any claim, it only tags the frames. -/
def UdpMessageExtraTypeMetrix : Nat := 1

/-- Modelled from the spec: `YCKMetrixDataTypeUp`, a relay constant not
under `src/` (see `UdpMessageExtraTypeMetrix`). -/
def YCKMetrixDataTypeUp : Nat := 2

/-- Modelled from the spec: `YCKMetrixDataTypeRTT`, a relay constant not
under `src/` (see `UdpMessageExtraTypeMetrix`). -/
def YCKMetrixDataTypeRTT : Nat := 3

/-- `binary.BigEndian.PutUint16`. -/
def putU16 (v : Nat) : List Nat := [v / 256 % 256, v % 256]

/-- `binary.BigEndian.PutUint32`. -/
def putU32 (v : Nat) : List Nat :=
  [v / 16777216 % 256, v / 65536 % 256, v / 256 % 256, v % 256]

/-- The Go conversion `uint16(z)` of a signed value. -/
def u16ofInt (z : Int) : Nat := (z % 65536).toNat

/-- The Go conversion `uint32(z)` of a signed value. -/
def u32ofInt (z : Int) : Nat := (z % 4294967296).toNat

/-- `Metrics.Process` (metrics.go lines 44-161): append the sample; close
a window when the buffer is full or more than a second has elapsed
(min/max scan, pairing, the 19-byte uplink summary when
`packetShould > 0`, carry-over of the last 20 samples when more than 20
are buffered); otherwise emit a 7-byte RTT probe at most once per 100 ms.
Returns the new state and the emitted frame bytes (`Process`'s `ok` is
`(data ≠ nil)`, i.e. `Option.isSome`).  Go int division is truncated
(`Int.tdiv`). -/
def Process (m : Metrics) (msg : UMsg) (timestamp : Int) :
    Metrics × Option (List Nat) :=
  let stat := m.stat.set m.pos
    { paired := false, tid := msg.Tid, tseq := msg.Tseq % 65536,
      bytes := msg.size % 65536, timestamp := timestamp }
  let pos := m.pos + 1
  if StatBufferSize ≤ pos ∨ 1000000000 < timestamp - m.lastTimestamp then
    let a := scanLoop pos stat
    let packetRecv : Int := (pos : Int) - a.packetDup
    let totalTime : Int :=
      ((a.buf.getD (pos - 1) default).timestamp - (a.buf.getD 0 default).timestamp).tdiv 1000000
    let ps := packetShouldOf a.minSeq a.maxSeq
    let bandwidth : Int :=
      if 0 < a.accPairs ∧ 0 < a.accTimes then
        ((8 * (a.accBytes : Int) * 1000000000).tdiv a.accTimes).tdiv 1024
      else -1
    let data : Option (List Nat) :=
      if 0 < ps then
        some ([UdpMessageExtraTypeMetrix] ++ putU16 16 ++ [YCKMetrixDataTypeUp, msg.Tid] ++
              putU32 (u32ofInt a.totalBytes) ++ putU16 (u16ofInt totalTime) ++
              putU32 (u32ofInt bandwidth) ++ putU16 ps ++ putU16 (u16ofInt packetRecv))
      else none
    let stat2 :=
      if 20 < pos then
        (List.range StatBufferSize).map (fun i =>
          if i < 20 then { a.buf.getD (pos - 20 + i) default with paired := false }
          else a.buf.getD i default)
      else a.buf
    let pos2 := if 20 < pos then 20 else pos
    ({ stat := stat2, pos := pos2, lastTimestamp := timestamp,
       lastTimestampRTT := m.lastTimestampRTT }, data)
  else if 100000000 < timestamp - m.lastTimestampRTT then
    ({ m with stat := stat, pos := pos, lastTimestampRTT := timestamp },
     some ([UdpMessageExtraTypeMetrix] ++ putU16 4 ++ [YCKMetrixDataTypeRTT, msg.Tid] ++
           putU16 (msg.Timestamp % 65536)))
  else ({ m with stat := stat, pos := pos }, none)

/-- Feed a list of (message, timestamp) observations through `Process`. -/
def runMetrics (m : Metrics) : List (UMsg × Int) → Metrics
  | [] => m
  | (msg, t) :: rest => runMetrics (Process m msg t).1 rest

/-! ### Spec-side definitions for the numerical claim (written from the
spec's words, to be compared with the code-side computation). -/

/-- Spec-side: reduce an integer to the signed-16-bit value it wraps to. -/
def wrap16 (z : Int) : Int := (z + 32768) % 65536 - 32768

/-- Spec-side: one min/max update step over signed-16-bit values; "the
sign of (a − b) as int16 decides the ordering, with the pair (0, 0)
meaning uninitialised" (§4.6). -/
def minMaxSpecStep (mm : Int × Int) (t : Int) : Int × Int :=
  if mm.1 = 0 ∧ mm.2 = 0 then (t, t)
  else ((if wrap16 (t - mm.1) < 0 then t else mm.1),
        (if 0 < wrap16 (t - mm.2) then t else mm.2))

/-- Spec-side: `(minSeq, maxSeq)` over a list of signed sequence
numbers. -/
def minMaxSpec (ts : List Int) : Int × Int := ts.foldl minMaxSpecStep (0, 0)

/-- Spec-side: `packetShould = 2·(maxSeq − minSeq)` computed in 16-bit
signed arithmetic without widening, clamped to 0 when negative or when
`(minSeq, maxSeq)` is uninitialised (§4.6). -/
def packetShouldSpec (mn mx : Int) : Int :=
  let d := wrap16 (2 * wrap16 (mx - mn))
  if d < 0 ∨ (mn = 0 ∧ mx = 0) then 0 else d

/-! ## Association list and helper lemmas -/

theorem lookupA_insertA {α : Type} (m : List (Nat × α)) (k : Nat) (v : α) (key : Nat) :
    lookupA (insertA m k v) key = if k = key then some v else lookupA m key := by
  induction m with
  | nil => simp [insertA, lookupA]
  | cons hd tl ih =>
      obtain ⟨k', v'⟩ := hd
      simp only [insertA]
      by_cases h1 : k' = k
      · subst h1
        simp only [if_pos rfl, lookupA]
        by_cases h2 : k' = key <;> simp [h2]
      · simp only [if_neg h1, lookupA]
        by_cases h2 : k' = key
        · subst h2
          have hk : ¬k = k' := fun h => h1 h.symm
          simp [hk]
        · simp [h2, ih]

theorem allocSid_not_mem (rng : List Nat) (s : List (Nat × Session)) (sid : Nat)
    (rng' : List Nat) (h : allocSid rng s = some (sid, rng')) :
    lookupA s sid = none := by
  induction rng with
  | nil => simp [allocSid] at h
  | cons r rs ih =>
      by_cases hr : lookupA s r = none
      · simp [allocSid, hr] at h
        obtain ⟨h1, _⟩ := h
        subst h1; exact hr
      · simp [allocSid, hr] at h
        exact ih h

theorem lookupA_ensureP_of_some (parts : List (Nat × Participant)) (k u : Nat)
    (q : Participant) (h : lookupA parts u = some q) :
    lookupA (ensureP parts k) u = some q := by
  unfold ensureP
  cases hk : lookupA parts k with
  | some _ => exact h
  | none =>
      rw [lookupA_insertA]
      by_cases he : k = u
      · subst he; rw [hk] at h; exact absurd h (by simp)
      · simp [he, h]

/-- C2: the claim asserts the 1-1 branch creates Participants on demand
for both ends and never crashes; the code contradicts the spec's intent:
an End signal whose From participant exists but whose To participant is
absent dereferences the nil To pointer and panics.  Evaluated at the
failing input: session 7 (OneToOne) holds only participant 42, and the
1-1 signal End from 42 to 99 crashes the handler. -/
theorem c2_nil_pt_panic :
    handleMessageUserSignal
      ⟨[(7, ⟨7, .oneToOne, [(42, ⟨42, .idle, none⟩)]⟩)], [], []⟩
      ⟨"e", some ⟨.endCall, 42, 99, 7, none, none, none⟩⟩ = none := by
  decide

/-- C8: a SidRequest allocates a Sid absent from the registry at
allocation time, creates `sessions[sid]` with Mode=Undecided and an empty
participant map, emits exactly one SidCreated signal addressed to the
requesting sender carrying the new Sid, and touches no other registry
entry. -/
theorem c8_sid_request (st : SMState) (pkt : Packet) (sg : Signal) (sid : Nat)
    (rng' : List Nat)
    (hd : lruContains st.dedup pkt.Payload = false)
    (hs : pkt.Sig = some sg)
    (hk : sg.Signal = .sidRequest)
    (ha : allocSid st.rng st.sessions = some (sid, rng')) :
    ∃ st', handleMessageUserSignal st pkt =
        some (st', [mkOut sg.From (NewSignal .sidCreated SessionManagerUserId sg.From sid)]) ∧
      lookupA st.sessions sid = none ∧
      lookupA st'.sessions sid = some { Sid := sid, Mode := .undecided, Participants := [] } ∧
      ∀ k, k ≠ sid → lookupA st'.sessions k = lookupA st.sessions k := by
  refine ⟨{ sessions := insertA st.sessions sid (NewSession sid),
            dedup := lruAdd st.dedup pkt.Payload, rng := rng' }, ?_, ?_, ?_, ?_⟩
  · simp only [handleMessageUserSignal, hd, Bool.false_eq_true, if_false, hs, hk, ha]
    simp [NewSignal, mkOut]
  · exact allocSid_not_mem st.rng st.sessions sid rng' ha
  · simp [lookupA_insertA, NewSession]
  · intro k hkne
    rw [lookupA_insertA, if_neg (fun h => hkne h.symm)]

theorem c8_sid_request_witness :
    ∃ st', handleMessageUserSignal ⟨[], [], [5]⟩
        ⟨"s", some ⟨.sidRequest, 42, SessionManagerUserId, 0, none, none, none⟩⟩ =
        some (st', [mkOut 42 (NewSignal .sidCreated SessionManagerUserId 42 5)]) ∧
      lookupA ([] : List (Nat × Session)) 5 = none ∧
      lookupA st'.sessions 5 = some { Sid := 5, Mode := .undecided, Participants := [] } ∧
      ∀ k, k ≠ 5 → lookupA st'.sessions k = lookupA ([] : List (Nat × Session)) k :=
  c8_sid_request ⟨[], [], [5]⟩
    ⟨"s", some ⟨.sidRequest, 42, SessionManagerUserId, 0, none, none, none⟩⟩
    ⟨.sidRequest, 42, SessionManagerUserId, 0, none, none, none⟩ 5 []
    (by decide) rfl rfl (by decide)

theorem trans11_guard_false (parts : List (Nat × Participant)) (sg : Signal)
    (hg : guard11 parts sg = false) :
    ∃ parts', trans11 parts sg = some parts' ∧
      ∀ u q, lookupA parts u = some q → lookupA parts' u = some q := by
  cases hsig : sg.Signal
  case sidRequest | sidCreated | ring | memberOp | memberState =>
    exact ⟨parts, by simp [trans11, hsig], fun u q h => h⟩
  case invite =>
      simp only [guard11, hsig] at hg
      cases hf : lookupA parts sg.From with
      | none => rw [hf] at hg; simp at hg
      | some pf =>
          rw [hf] at hg
          simp only [decide_eq_false_iff_not] at hg
          refine ⟨ensureP (ensureP parts sg.From) sg.To, ?_, ?_⟩
          · have h1 : ensureP parts sg.From = parts := by unfold ensureP; rw [hf]
            have h2 : lookupA (ensureP (ensureP parts sg.From) sg.To) sg.From = some pf := by
              rw [h1]; exact lookupA_ensureP_of_some parts sg.To sg.From pf hf
            simp only [trans11, hsig, h2, if_neg hg]
          · intro u q h
            exact lookupA_ensureP_of_some _ sg.To u q
              (lookupA_ensureP_of_some parts sg.From u q h)
  case cancel =>
      simp only [guard11, hsig] at hg
      cases hf : lookupA parts sg.From with
      | none => exact ⟨parts, by simp [trans11, hsig, hf], fun u q h => h⟩
      | some pf =>
          rw [hf] at hg
          simp only [decide_eq_false_iff_not] at hg
          exact ⟨parts, by simp [trans11, hsig, hf, hg], fun u q h => h⟩
  case accept =>
      simp only [guard11, hsig] at hg
      cases hf : lookupA parts sg.From with
      | none => exact ⟨parts, by simp [trans11, hsig, hf], fun u q h => h⟩
      | some pf =>
          rw [hf] at hg
          simp only [decide_eq_false_iff_not] at hg
          exact ⟨parts, by simp [trans11, hsig, hf, hg], fun u q h => h⟩
  case reject =>
      simp only [guard11, hsig] at hg
      cases hf : lookupA parts sg.From with
      | none => exact ⟨parts, by simp [trans11, hsig, hf], fun u q h => h⟩
      | some pf =>
          rw [hf] at hg
          simp only [decide_eq_false_iff_not] at hg
          exact ⟨parts, by simp [trans11, hsig, hf, hg], fun u q h => h⟩
  case busy =>
      simp only [guard11, hsig] at hg
      cases hf : lookupA parts sg.From with
      | none => exact ⟨parts, by simp [trans11, hsig, hf], fun u q h => h⟩
      | some pf =>
          rw [hf] at hg
          simp only [decide_eq_false_iff_not] at hg
          exact ⟨parts, by simp [trans11, hsig, hf, hg], fun u q h => h⟩
  case endCall =>
      simp only [guard11, hsig] at hg
      cases hf : lookupA parts sg.From with
      | none => exact ⟨parts, by simp [trans11, hsig, hf], fun u q h => h⟩
      | some pf => rw [hf] at hg; simp at hg

/-- C1 (amended): for a 1-1-routed signal on an existing non-Multiple
session whose transition-table guard does not hold, no existing
participant's State or Event changes and the only outbound message is the
unconditional verbatim forward of the signal to its destination (the Go
code forwards before consulting any guard, so "no outbound message" as
originally claimed is false; Invite may additionally insert missing
participants in their initial Idle state). -/
theorem c1_guard_fail (st : SMState) (pkt : Packet) (sg : Signal) (sess : Session)
    (hd : lruContains st.dedup pkt.Payload = false)
    (hs : pkt.Sig = some sg)
    (hk : sg.Signal ≠ .sidRequest)
    (h0 : sg.SessionId ≠ 0)
    (hl : lookupA st.sessions sg.SessionId = some sess)
    (ht : sg.To ≠ SessionManagerUserId)
    (hm : sess.Mode ≠ .multiple)
    (hg : guard11 sess.Participants sg = false) :
    ∃ st', handleMessageUserSignal st pkt = some (st', [mkOut sg.To sg]) ∧
      ∃ sess', lookupA st'.sessions sg.SessionId = some sess' ∧
        ∀ u q, lookupA sess.Participants u = some q →
          lookupA sess'.Participants u = some q := by
  obtain ⟨parts', htr, hpres⟩ := trans11_guard_false sess.Participants sg hg
  refine ⟨{ sessions := insertA st.sessions sg.SessionId
              { sess with Mode := .oneToOne, Participants := parts' },
            dedup := lruAdd st.dedup pkt.Payload, rng := st.rng }, ?_, ?_⟩
  · simp only [handleMessageUserSignal, hd, Bool.false_eq_true, if_false, hs, hk, h0,
      if_neg hk, if_neg h0, hl, if_pos ht, if_neg hm]
    simp only [htr]
  · refine ⟨{ sess with Mode := .oneToOne, Participants := parts' }, ?_, hpres⟩
    simp [lookupA_insertA]

theorem c1_guard_fail_witness :
    ∃ st', handleMessageUserSignal
        ⟨[(7, ⟨7, .oneToOne, [(42, ⟨42, .calling, none⟩)]⟩)], [], []⟩
        ⟨"i", some ⟨.invite, 42, 77, 7, none, none, none⟩⟩ =
        some (st', [mkOut 77 ⟨.invite, 42, 77, 7, none, none, none⟩]) ∧
      ∃ sess', lookupA st'.sessions 7 = some sess' ∧
        ∀ u q, lookupA [(42, (⟨42, .calling, none⟩ : Participant))] u = some q →
          lookupA sess'.Participants u = some q :=
  c1_guard_fail ⟨[(7, ⟨7, .oneToOne, [(42, ⟨42, .calling, none⟩)]⟩)], [], []⟩
    ⟨"i", some ⟨.invite, 42, 77, 7, none, none, none⟩⟩
    ⟨.invite, 42, 77, 7, none, none, none⟩
    ⟨7, .oneToOne, [(42, ⟨42, .calling, none⟩)]⟩
    (by decide) rfl (by decide) (by decide) (by decide) (by decide) (by decide) (by decide)

/-- C1 counterexample to the claim as stated: the same guard-failing
1-1 Invite (originator 42 is Calling, session 7 is OneToOne, To = 77 is
not the session manager) does emit an outbound message, the unconditional
forward; so "no outbound message is emitted" fails. -/
theorem c1_counterexample :
    ((77 : Nat) ≠ SessionManagerUserId ∧
     lookupA [(7, (⟨7, .oneToOne, [(42, ⟨42, .calling, none⟩)]⟩ : Session))] 7 =
       some ⟨7, .oneToOne, [(42, ⟨42, .calling, none⟩)]⟩ ∧
     (⟨7, .oneToOne, [(42, ⟨42, .calling, none⟩)]⟩ : Session).Mode ≠ .multiple ∧
     guard11 [(42, ⟨42, .calling, none⟩)] ⟨.invite, 42, 77, 7, none, none, none⟩ = false) ∧
    handleMessageUserSignal
      ⟨[(7, ⟨7, .oneToOne, [(42, ⟨42, .calling, none⟩)]⟩)], [], []⟩
      ⟨"i", some ⟨.invite, 42, 77, 7, none, none, none⟩⟩ =
      some (⟨[(7, ⟨7, .oneToOne, [(42, ⟨42, .calling, none⟩), (77, ⟨77, .idle, none⟩)]⟩)],
             ["i"], []⟩,
            [mkOut 77 ⟨.invite, 42, 77, 7, none, none, none⟩]) ∧
    ([mkOut 77 ⟨.invite, 42, 77, 7, none, none, none⟩] : List OutMsg) ≠ [] := by
  decide

theorem ensureP_of_some (parts : List (Nat × Participant)) (uid : Nat)
    (p : Participant) (h : lookupA parts uid = some p) : ensureP parts uid = parts := by
  unfold ensureP; rw [h]

theorem ensureP_of_none (parts : List (Nat × Participant)) (uid : Nat)
    (h : lookupA parts uid = none) :
    lookupA (ensureP parts uid) uid = some (NewParticipant uid) := by
  unfold ensureP; rw [h, lookupA_insertA, if_pos rfl]

theorem lookupA_updEntry_self (parts : List (Nat × Participant)) (uid : Nat)
    (f : Participant → Participant) (p : Participant)
    (h : lookupA parts uid = some p) :
    lookupA (updEntry parts uid f) uid = some (f p) := by
  unfold updEntry; rw [h, lookupA_insertA, if_pos rfl]

theorem handle_multi_eq (st : SMState) (pkt : Packet) (sg : Signal) (sess : Session)
    (hd : lruContains st.dedup pkt.Payload = false)
    (hs : pkt.Sig = some sg)
    (hk : sg.Signal ≠ .sidRequest)
    (h0 : sg.SessionId ≠ 0)
    (hl : lookupA st.sessions sg.SessionId = some sess)
    (ht : sg.To = SessionManagerUserId)
    (hm : ¬(sess.Mode = .oneToOne ∧ sg.Signal ≠ .memberOp)) :
    handleMessageUserSignal st pkt =
      some ({ sessions := insertA st.sessions sg.SessionId (handleMulti sess sg).1,
              dedup := lruAdd st.dedup pkt.Payload, rng := st.rng },
            (handleMulti sess sg).2 ++
              fanout (handleMulti sess sg).1.Sid (handleMulti sess sg).1.Participants) := by
  have htt : ¬(sg.To ≠ SessionManagerUserId) := by simp [ht]
  simp only [handleMessageUserSignal, hd, Bool.false_eq_true, if_false, hs,
    if_neg hk, if_neg h0, hl, if_neg htt, if_neg hm]

theorem handleMulti_Mode (sess : Session) (sg : Signal) :
    (handleMulti sess sg).1.Mode =
      if sess.Mode = .undecided then .multiple
      else if sess.Mode = .oneToOne ∧ sg.Signal = .memberOp then .multiple
      else sess.Mode := by
  cases hsig : sg.Signal <;> cases hm : sess.Mode <;>
    simp only [handleMulti, hsig, hm] <;>
    (try split) <;> (try split) <;> (try split) <;> (try split) <;> simp_all

theorem memberOpInvite_step_outs (sid : Nat)
    (acc : List (Nat × Participant) × List OutMsg) (v : Option Nat) (o : OutMsg)
    (h : o ∈ (memberOpInvite sid acc v).2) :
    o ∈ acc.2 ∨ o.Payload.Signal = .invite := by
  cases v with
  | none => exact Or.inl h
  | some mem =>
      simp only [memberOpInvite] at h
      cases hlk : lookupA (ensureP acc.1 mem) mem with
      | none => simp only [hlk] at h; exact Or.inl h
      | some p =>
          simp only [hlk] at h
          by_cases hid : p.State = .idle
          · rw [if_pos hid] at h
            rcases List.mem_append.mp h with h1 | h2
            · exact Or.inl h1
            · right
              simp only [List.mem_singleton] at h2
              subst h2; rfl
          · rw [if_neg hid] at h; exact Or.inl h

theorem memberOpKick_step_outs (sid : Nat)
    (acc : List (Nat × Participant) × List OutMsg) (v : Option Nat) (o : OutMsg)
    (h : o ∈ (memberOpKick sid acc v).2) :
    o ∈ acc.2 ∨ o.Payload.Signal = .endCall := by
  cases v with
  | none => exact Or.inl h
  | some mem =>
      simp only [memberOpKick] at h
      cases hlk : lookupA (ensureP acc.1 mem) mem with
      | none => simp only [hlk] at h; exact Or.inl h
      | some p =>
          simp only [hlk] at h
          by_cases hid : p.State = .incall
          · rw [if_pos hid] at h
            rcases List.mem_append.mp h with h1 | h2
            · exact Or.inl h1
            · right
              simp only [List.mem_singleton] at h2
              subst h2; rfl
          · rw [if_neg hid] at h; exact Or.inl h

theorem memberOpInvite_fold_outs (sid : Nat) (members : List (Option Nat)) :
    ∀ (init : List (Nat × Participant) × List OutMsg) (o : OutMsg),
      o ∈ (members.foldl (memberOpInvite sid) init).2 →
      o ∈ init.2 ∨ o.Payload.Signal = .invite := by
  induction members with
  | nil => intro init o h; exact Or.inl h
  | cons v vs ih =>
      intro init o h
      rw [List.foldl_cons] at h
      rcases ih (memberOpInvite sid init v) o h with h1 | h2
      · exact memberOpInvite_step_outs sid init v o h1
      · exact Or.inr h2

theorem memberOpKick_fold_outs (sid : Nat) (members : List (Option Nat)) :
    ∀ (init : List (Nat × Participant) × List OutMsg) (o : OutMsg),
      o ∈ (members.foldl (memberOpKick sid) init).2 →
      o ∈ init.2 ∨ o.Payload.Signal = .endCall := by
  induction members with
  | nil => intro init o h; exact Or.inl h
  | cons v vs ih =>
      intro init o h
      rw [List.foldl_cons] at h
      rcases ih (memberOpKick sid init v) o h with h1 | h2
      · exact memberOpKick_step_outs sid init v o h1
      · exact Or.inr h2

theorem handleMulti_outs (sess : Session) (sg : Signal) :
    ∀ o ∈ (handleMulti sess sg).2, o.Payload.Signal ≠ .memberState := by
  intro o ho
  cases hsig : sg.Signal <;> simp only [handleMulti, hsig] at ho
  case invite =>
      rcases hlk : lookupA (ensureP (if sess.Mode = .undecided then { sess with Mode := .multiple } else sess).Participants sg.From) sg.From with _ | pf <;>
        simp only [hlk] at ho
      · simp at ho
      · by_cases hid : pf.State = .idle
        · rw [if_pos hid] at ho
          simp only [List.mem_cons, List.mem_singleton] at ho
          rcases ho with h | h | h <;> first
            | (subst h; simp [mkOut, NewSignal])
            | simp at h
        · rw [if_neg hid] at ho; simp at ho
  case memberOp =>
      rcases hop : sg.InfoOp with _ | op <;> simp only [hop] at ho
      · simp at ho
      · rcases hmem : sg.InfoMembers with _ | members <;> simp only [hmem] at ho
        · simp at ho
        · by_cases hinv : op = "invite"
          · rw [if_pos hinv] at ho
            rcases memberOpInvite_fold_outs _ members _ o ho with h | h
            · simp at h
            · rw [h]; simp
          · rw [if_neg hinv] at ho
            by_cases hkick : op = "kick"
            · rw [if_pos hkick] at ho
              rcases memberOpKick_fold_outs _ members _ o ho with h | h
              · simp at h
              · rw [h]; simp
            · rw [if_neg hkick] at ho; simp at ho
  all_goals (try split at ho)
  all_goals (try split at ho)
  all_goals simp at ho

/-- C10: every signal addressed to the session manager that passes the
mode check triggers the MemberState fan-out unconditionally: the outbound
list ends with exactly one MemberState signal per current participant of
the resulting session, each carrying the full decimal-string-uid to
(state, event) map, and nothing before the fan-out is a MemberState. -/
theorem c10_fanout (st : SMState) (pkt : Packet) (sg : Signal) (sess : Session)
    (hd : lruContains st.dedup pkt.Payload = false)
    (hs : pkt.Sig = some sg)
    (hk : sg.Signal ≠ .sidRequest)
    (h0 : sg.SessionId ≠ 0)
    (hl : lookupA st.sessions sg.SessionId = some sess)
    (ht : sg.To = SessionManagerUserId)
    (hm : ¬(sess.Mode = .oneToOne ∧ sg.Signal ≠ .memberOp)) :
    ∃ st' pre sess', handleMessageUserSignal st pkt =
        some (st', pre ++ sess'.Participants.map (fun kv =>
          mkOut kv.2.Uid ⟨.memberState, SessionManagerUserId, kv.2.Uid, sess'.Sid,
            none, none, some (stateInfo sess'.Participants)⟩)) ∧
      lookupA st'.sessions sg.SessionId = some sess' ∧
      ∀ o ∈ pre, o.Payload.Signal ≠ .memberState := by
  refine ⟨{ sessions := insertA st.sessions sg.SessionId (handleMulti sess sg).1,
            dedup := lruAdd st.dedup pkt.Payload, rng := st.rng },
          (handleMulti sess sg).2, (handleMulti sess sg).1, ?_, ?_, ?_⟩
  · rw [handle_multi_eq st pkt sg sess hd hs hk h0 hl ht hm]
    rfl
  · simp [lookupA_insertA]
  · exact handleMulti_outs sess sg

theorem c10_fanout_witness :
    ∃ st' pre sess', handleMessageUserSignal
        ⟨[(5, ⟨5, .undecided, []⟩)], [], []⟩
        ⟨"x", some ⟨.ring, 42, SessionManagerUserId, 5, none, none, none⟩⟩ =
        some (st', pre ++ sess'.Participants.map (fun kv =>
          mkOut kv.2.Uid ⟨.memberState, SessionManagerUserId, kv.2.Uid, sess'.Sid,
            none, none, some (stateInfo sess'.Participants)⟩)) ∧
      lookupA st'.sessions 5 = some sess' ∧
      ∀ o ∈ pre, o.Payload.Signal ≠ .memberState :=
  c10_fanout ⟨[(5, ⟨5, .undecided, []⟩)], [], []⟩
    ⟨"x", some ⟨.ring, 42, SessionManagerUserId, 5, none, none, none⟩⟩
    ⟨.ring, 42, SessionManagerUserId, 5, none, none, none⟩ ⟨5, .undecided, []⟩
    (by decide) rfl (by decide) (by decide) (by decide) rfl (by decide)

/-- C9: a non-SidRequest signal addressed to the session manager for an
existing Undecided session leaves the session's Mode Multiple (even when
the kind is unrecognized and no participant changes), and once a session
is Multiple every 1-1-routed signal for it is refused: the handler
returns with no session change and no outbound message. -/
theorem c9_undecided_to_multiple (st : SMState) (pkt : Packet) (sg : Signal) (sess : Session)
    (hd : lruContains st.dedup pkt.Payload = false)
    (hs : pkt.Sig = some sg)
    (hk : sg.Signal ≠ .sidRequest)
    (h0 : sg.SessionId ≠ 0)
    (hl : lookupA st.sessions sg.SessionId = some sess)
    (ht : sg.To = SessionManagerUserId)
    (hu : sess.Mode = .undecided) :
    (∃ st' outs sess', handleMessageUserSignal st pkt = some (st', outs) ∧
       lookupA st'.sessions sg.SessionId = some sess' ∧ sess'.Mode = .multiple) ∧
    (∀ (st2 : SMState) (pkt2 : Packet) (sg2 : Signal) (sess2 : Session),
       lruContains st2.dedup pkt2.Payload = false → pkt2.Sig = some sg2 →
       sg2.Signal ≠ .sidRequest → sg2.SessionId ≠ 0 →
       lookupA st2.sessions sg2.SessionId = some sess2 → sess2.Mode = .multiple →
       sg2.To ≠ SessionManagerUserId →
       handleMessageUserSignal st2 pkt2 =
         some ({ st2 with dedup := lruAdd st2.dedup pkt2.Payload }, [])) := by
  constructor
  · have hm : ¬(sess.Mode = .oneToOne ∧ sg.Signal ≠ .memberOp) := by
      rw [hu]; rintro ⟨h, -⟩; exact absurd h (by decide)
    refine ⟨_, _, (handleMulti sess sg).1,
      handle_multi_eq st pkt sg sess hd hs hk h0 hl ht hm, ?_, ?_⟩
    · simp [lookupA_insertA]
    · rw [handleMulti_Mode, hu]; rfl
  · intro st2 pkt2 sg2 sess2 hd2 hs2 hk2 h02 hl2 hm2 ht2
    simp only [handleMessageUserSignal, hd2, Bool.false_eq_true, if_false, hs2,
      if_neg hk2, if_neg h02, hl2, if_pos ht2, hm2, if_pos rfl]
    simp

theorem c9_undecided_to_multiple_witness :
    (∃ st' outs sess', handleMessageUserSignal
        ⟨[(5, ⟨5, .undecided, []⟩)], [], []⟩
        ⟨"y", some ⟨.sidCreated, 42, SessionManagerUserId, 5, none, none, none⟩⟩ =
        some (st', outs) ∧
       lookupA st'.sessions 5 = some sess' ∧ sess'.Mode = .multiple) ∧
    (∀ (st2 : SMState) (pkt2 : Packet) (sg2 : Signal) (sess2 : Session),
       lruContains st2.dedup pkt2.Payload = false → pkt2.Sig = some sg2 →
       sg2.Signal ≠ .sidRequest → sg2.SessionId ≠ 0 →
       lookupA st2.sessions sg2.SessionId = some sess2 → sess2.Mode = .multiple →
       sg2.To ≠ SessionManagerUserId →
       handleMessageUserSignal st2 pkt2 =
         some ({ st2 with dedup := lruAdd st2.dedup pkt2.Payload }, [])) :=
  c9_undecided_to_multiple ⟨[(5, ⟨5, .undecided, []⟩)], [], []⟩
    ⟨"y", some ⟨.sidCreated, 42, SessionManagerUserId, 5, none, none, none⟩⟩
    ⟨.sidCreated, 42, SessionManagerUserId, 5, none, none, none⟩ ⟨5, .undecided, []⟩
    (by decide) rfl (by decide) (by decide) (by decide) rfl rfl

theorem handleMulti_invite (sess : Session) (sg : Signal)
    (hki : sg.Signal = .invite)
    (hp : ∀ pf, lookupA sess.Participants sg.From = some pf → pf.State = .idle) :
    ∃ p, (handleMulti sess sg).2 =
        [mkOut sg.From (NewSignal .ring SessionManagerUserId sg.From sess.Sid),
         mkOut sg.From (NewSignal .accept SessionManagerUserId sg.From sess.Sid)] ∧
      lookupA (handleMulti sess sg).1.Participants sg.From = some p ∧
      p.State = .incall ∧ p.Event = some .recvAccept := by
  have hsid : (if sess.Mode = .undecided then { sess with Mode := .multiple } else sess).Sid
      = sess.Sid := by
    by_cases h : sess.Mode = .undecided <;> simp [h]
  have hparts : (if sess.Mode = .undecided then { sess with Mode := .multiple } else sess).Participants
      = sess.Participants := by
    by_cases h : sess.Mode = .undecided <;> simp [h]
  have hpf1 : ∃ pf1, lookupA (ensureP sess.Participants sg.From) sg.From = some pf1 ∧
      pf1.State = .idle := by
    cases hf : lookupA sess.Participants sg.From with
    | none => exact ⟨NewParticipant sg.From, ensureP_of_none _ _ hf, rfl⟩
    | some pf => exact ⟨pf, by rw [ensureP_of_some _ _ pf hf]; exact hf, hp pf hf⟩
  obtain ⟨pf1, hpf1l, hpf1s⟩ := hpf1
  refine ⟨{ pf1 with State := .incall, Event := some .recvAccept }, ?_, ?_, rfl, rfl⟩
  · simp only [handleMulti, hki, hparts, hpf1l, if_pos hpf1s, hsid]
  · simp only [handleMulti, hki, hparts, hpf1l, if_pos hpf1s]
    have h1 := lookupA_updEntry_self _ sg.From
      (fun q => { q with State := YCKParticipantState.calling }) pf1 hpf1l
    have h2 := lookupA_updEntry_self _ sg.From
      (fun q => { q with Event := some YCKParticipantEvent.invite }) _ h1
    have h3 := lookupA_updEntry_self _ sg.From
      (fun q => { q with State := YCKParticipantState.incall }) _ h2
    have h4 := lookupA_updEntry_self _ sg.From
      (fun q => { q with Event := some YCKParticipantEvent.recvAccept }) _ h3
    exact h4

/-- C4: a multi-party Invite (addressed to the session manager) for an
existing session whose originator participant is created on demand or
Idle makes the SM emit Ring then Accept, in that order, both addressed to
the originator and ahead of any other outbound message, and leaves the
originator's participant in state Incall with event RecvAccept. -/
theorem c4_multi_auto_accept (st : SMState) (pkt : Packet) (sg : Signal) (sess : Session)
    (hd : lruContains st.dedup pkt.Payload = false)
    (hs : pkt.Sig = some sg)
    (hki : sg.Signal = .invite)
    (h0 : sg.SessionId ≠ 0)
    (hl : lookupA st.sessions sg.SessionId = some sess)
    (ht : sg.To = SessionManagerUserId)
    (hmode : sess.Mode ≠ .oneToOne)
    (hp : ∀ pf, lookupA sess.Participants sg.From = some pf → pf.State = .idle) :
    ∃ st' rest p, handleMessageUserSignal st pkt =
        some (st', mkOut sg.From (NewSignal .ring SessionManagerUserId sg.From sess.Sid) ::
                   mkOut sg.From (NewSignal .accept SessionManagerUserId sg.From sess.Sid) :: rest) ∧
      ∃ sess', lookupA st'.sessions sg.SessionId = some sess' ∧
        lookupA sess'.Participants sg.From = some p ∧
        p.State = .incall ∧ p.Event = some .recvAccept := by
  have hk : sg.Signal ≠ .sidRequest := by rw [hki]; decide
  have hm : ¬(sess.Mode = .oneToOne ∧ sg.Signal ≠ .memberOp) := by
    rintro ⟨h, -⟩; exact hmode h
  obtain ⟨p, houts, hlkp, hps, hpe⟩ := handleMulti_invite sess sg hki hp
  refine ⟨{ sessions := insertA st.sessions sg.SessionId (handleMulti sess sg).1,
            dedup := lruAdd st.dedup pkt.Payload, rng := st.rng },
          fanout (handleMulti sess sg).1.Sid (handleMulti sess sg).1.Participants, p, ?_, ?_⟩
  · rw [handle_multi_eq st pkt sg sess hd hs hk h0 hl ht hm, houts]
    rfl
  · exact ⟨(handleMulti sess sg).1, by simp [lookupA_insertA], hlkp, hps, hpe⟩

theorem c4_multi_auto_accept_witness :
    ∃ st' rest p, handleMessageUserSignal
        ⟨[(5, ⟨5, .undecided, []⟩)], [], []⟩
        ⟨"im", some ⟨.invite, 42, SessionManagerUserId, 5, none, none, none⟩⟩ =
        some (st', mkOut 42 (NewSignal .ring SessionManagerUserId 42 5) ::
                   mkOut 42 (NewSignal .accept SessionManagerUserId 42 5) :: rest) ∧
      ∃ sess', lookupA st'.sessions 5 = some sess' ∧
        lookupA sess'.Participants 42 = some p ∧
        p.State = .incall ∧ p.Event = some .recvAccept :=
  c4_multi_auto_accept ⟨[(5, ⟨5, .undecided, []⟩)], [], []⟩
    ⟨"im", some ⟨.invite, 42, SessionManagerUserId, 5, none, none, none⟩⟩
    ⟨.invite, 42, SessionManagerUserId, 5, none, none, none⟩ ⟨5, .undecided, []⟩
    (by decide) rfl rfl (by decide) (by decide) rfl (by decide)
    (by intro pf h; simp [lookupA] at h)

theorem modeLe_trans (a b c : YCKCallMode) (h1 : ModeLe a b) (h2 : ModeLe b c) :
    ModeLe a c := by
  cases a <;> cases b <;> cases c <;> revert h1 h2 <;> decide

theorem handle_step_mode (st : SMState) (pkt : Packet) (st' : SMState) (outs : List OutMsg)
    (h : handleMessageUserSignal st pkt = some (st', outs)) (sid : Nat) (sess : Session)
    (hsess : lookupA st.sessions sid = some sess) :
    ∃ sess', lookupA st'.sessions sid = some sess' ∧ ModeLe sess.Mode sess'.Mode := by
  by_cases hd : lruContains st.dedup pkt.Payload
  · rw [handleMessageUserSignal, if_pos hd] at h
    obtain ⟨rfl, rfl⟩ := by simpa using h
    exact ⟨sess, hsess, Or.inl rfl⟩
  · rw [handleMessageUserSignal, if_neg hd] at h
    cases hsg : pkt.Sig with
    | none =>
        rw [hsg] at h
        obtain ⟨rfl, rfl⟩ := by simpa using h
        exact ⟨sess, hsess, Or.inl rfl⟩
    | some sg =>
        rw [hsg] at h
        simp only at h
        by_cases hk : sg.Signal = .sidRequest
        · rw [if_pos hk] at h
          cases ha : allocSid st.rng st.sessions with
          | none => rw [ha] at h; cases h
          | some pr =>
              rw [ha] at h
              simp only at h
              obtain ⟨rfl, rfl⟩ := by simpa using h
              refine ⟨sess, ?_, Or.inl rfl⟩
              simp only [lookupA_insertA]
              have hnone := allocSid_not_mem _ _ _ _ ha
              by_cases he : pr.1 = sid
              · rw [he] at hnone; rw [hnone] at hsess; cases hsess
              · rw [if_neg he]; exact hsess
        · rw [if_neg hk] at h
          by_cases h0 : sg.SessionId = 0
          · rw [if_pos h0] at h
            obtain ⟨rfl, rfl⟩ := by simpa using h
            exact ⟨sess, hsess, Or.inl rfl⟩
          · rw [if_neg h0] at h
            cases hfound : lookupA st.sessions sg.SessionId with
            | none =>
                rw [hfound] at h
                obtain ⟨rfl, rfl⟩ := by simpa using h
                exact ⟨sess, hsess, Or.inl rfl⟩
            | some session =>
                rw [hfound] at h
                simp only at h
                by_cases ht : sg.To ≠ SessionManagerUserId
                · rw [if_pos ht] at h
                  by_cases hmm : session.Mode = .multiple
                  · rw [if_pos hmm] at h
                    obtain ⟨rfl, rfl⟩ := by simpa using h
                    exact ⟨sess, hsess, Or.inl rfl⟩
                  · rw [if_neg hmm] at h
                    cases htr : trans11 session.Participants sg with
                    | none => rw [htr] at h; cases h
                    | some parts =>
                        rw [htr] at h
                        simp only at h
                        obtain ⟨rfl, rfl⟩ := by simpa using h
                        simp only [lookupA_insertA]
                        by_cases he : sg.SessionId = sid
                        · rw [he] at hfound
                          rw [hfound] at hsess
                          obtain rfl : session = sess := by simpa using hsess
                          refine ⟨_, by rw [if_pos he], ?_⟩
                          cases hsm : session.Mode with
                          | undecided => exact Or.inr (Or.inl ⟨rfl, rfl⟩)
                          | oneToOne => exact Or.inl rfl
                          | multiple => exact absurd hsm hmm
                        · rw [if_neg he]
                          exact ⟨sess, hsess, Or.inl rfl⟩
                · rw [if_neg ht] at h
                  by_cases hoto : session.Mode = .oneToOne ∧ sg.Signal ≠ .memberOp
                  · rw [if_pos hoto] at h
                    obtain ⟨rfl, rfl⟩ := by simpa using h
                    exact ⟨sess, hsess, Or.inl rfl⟩
                  · rw [if_neg hoto] at h
                    obtain ⟨rfl, rfl⟩ := by simpa using h
                    simp only [lookupA_insertA]
                    by_cases he : sg.SessionId = sid
                    · rw [he] at hfound
                      rw [hfound] at hsess
                      obtain rfl : session = sess := by simpa using hsess
                      refine ⟨_, by rw [if_pos he], ?_⟩
                      rw [handleMulti_Mode]
                      by_cases h1 : session.Mode = .undecided
                      · simp [h1, ModeLe]
                      · rw [if_neg h1]
                        by_cases h2 : session.Mode = .oneToOne ∧ sg.Signal = .memberOp
                        · rw [if_pos h2]
                          exact Or.inr (Or.inr (Or.inr ⟨h2.1, rfl⟩))
                        · rw [if_neg h2]; exact Or.inl rfl
                    · rw [if_neg he]
                      exact ⟨sess, hsess, Or.inl rfl⟩

/-- C5: over any handled packet sequence, a session's Mode only ever
moves along Undecided → OneToOne, Undecided → Multiple, or
OneToOne → Multiple (`ModeLe`), and once Multiple it stays Multiple. -/
theorem c5_mode_monotone (ps : List Packet) (st st' : SMState)
    (h : runMsgs st ps = some st') (sid : Nat) (sess : Session)
    (hsess : lookupA st.sessions sid = some sess) :
    ∃ sess', lookupA st'.sessions sid = some sess' ∧ ModeLe sess.Mode sess'.Mode ∧
      (sess.Mode = .multiple → sess'.Mode = .multiple) := by
  induction ps generalizing st sess with
  | nil =>
      obtain rfl : st = st' := by simpa [runMsgs] using h
      exact ⟨sess, hsess, Or.inl rfl, fun hm => hm⟩
  | cons p ps ih =>
      rw [runMsgs] at h
      cases hstep : handleMessageUserSignal st p with
      | none => rw [hstep] at h; cases h
      | some r =>
          rw [hstep] at h
          obtain ⟨st1, outs⟩ := r
          obtain ⟨sess1, hlk1, hle1⟩ := handle_step_mode st p st1 outs hstep sid sess hsess
          obtain ⟨sess', hlk', hle', hmul'⟩ := ih st1 h sess1 hlk1
          refine ⟨sess', hlk', modeLe_trans _ _ _ hle1 hle', ?_⟩
          intro hm
      -- Multiple is terminal: from hle1, sess1.Mode = .multiple as well
          have h1 : sess1.Mode = .multiple := by
            rcases hle1 with he | ⟨ha, -⟩ | ⟨ha, hb⟩ | ⟨ha, hb⟩
            · rw [← he, hm]
            · rw [ha] at hm; cases hm
            · exact hb
            · rw [ha] at hm; cases hm
          exact hmul' h1

theorem c5_mode_monotone_witness :
    ∃ sess', lookupA
        (SMState.sessions ⟨[(5, ⟨5, .multiple, [(42, ⟨42, .incall, some .recvAccept⟩)]⟩)],
          ["im"], []⟩) 5 = some sess' ∧
      ModeLe YCKCallMode.undecided sess'.Mode ∧
      (YCKCallMode.undecided = .multiple → sess'.Mode = .multiple) :=
  c5_mode_monotone [⟨"im", some ⟨.invite, 42, SessionManagerUserId, 5, none, none, none⟩⟩]
    ⟨[(5, ⟨5, .undecided, []⟩)], [], []⟩
    ⟨[(5, ⟨5, .multiple, [(42, ⟨42, .incall, some .recvAccept⟩)]⟩)], ["im"], []⟩
    (by decide) 5 ⟨5, .undecided, []⟩ (by decide)

theorem handle_contains (st : SMState) (pkt : Packet)
    (hd : lruContains st.dedup pkt.Payload = true) :
    handleMessageUserSignal st pkt = some (st, []) := by
  rw [handleMessageUserSignal, if_pos hd]

theorem handle_dedup (st : SMState) (pkt : Packet) (st' : SMState) (outs : List OutMsg)
    (hd : lruContains st.dedup pkt.Payload = false)
    (h : handleMessageUserSignal st pkt = some (st', outs)) :
    st'.dedup = lruAdd st.dedup pkt.Payload := by
  rw [handleMessageUserSignal, if_neg (by simp [hd])] at h
  cases hsg : pkt.Sig with
  | none =>
      rw [hsg] at h
      obtain ⟨rfl, rfl⟩ := by simpa using h
      rfl
  | some sg =>
      rw [hsg] at h
      simp only at h
      by_cases hk : sg.Signal = .sidRequest
      · rw [if_pos hk] at h
        cases ha : allocSid st.rng st.sessions with
        | none => rw [ha] at h; cases h
        | some pr =>
            rw [ha] at h
            simp only at h
            obtain ⟨rfl, rfl⟩ := by simpa using h
            rfl
      · rw [if_neg hk] at h
        by_cases h0 : sg.SessionId = 0
        · rw [if_pos h0] at h
          obtain ⟨rfl, rfl⟩ := by simpa using h
          rfl
        · rw [if_neg h0] at h
          cases hfound : lookupA st.sessions sg.SessionId with
          | none =>
              rw [hfound] at h
              obtain ⟨rfl, rfl⟩ := by simpa using h
              rfl
          | some session =>
              rw [hfound] at h
              simp only at h
              by_cases ht : sg.To ≠ SessionManagerUserId
              · rw [if_pos ht] at h
                by_cases hmm : session.Mode = .multiple
                · rw [if_pos hmm] at h
                  obtain ⟨rfl, rfl⟩ := by simpa using h
                  rfl
                · rw [if_neg hmm] at h
                  cases htr : trans11 session.Participants sg with
                  | none => rw [htr] at h; cases h
                  | some parts =>
                      rw [htr] at h
                      simp only at h
                      obtain ⟨rfl, rfl⟩ := by simpa using h
                      rfl
              · rw [if_neg ht] at h
                by_cases hoto : session.Mode = .oneToOne ∧ sg.Signal ≠ .memberOp
                · rw [if_pos hoto] at h
                  obtain ⟨rfl, rfl⟩ := by simpa using h
                  rfl
                · rw [if_neg hoto] at h
                  obtain ⟨rfl, rfl⟩ := by simpa using h
                  rfl

theorem runMsgs_append (st : SMState) (l1 l2 : List Packet) :
    runMsgs st (l1 ++ l2) =
      match runMsgs st l1 with
      | none => none
      | some s => runMsgs s l2 := by
  induction l1 generalizing st with
  | nil => simp [runMsgs]
  | cons p ps ih =>
      rw [List.cons_append, runMsgs, runMsgs]
      cases handleMessageUserSignal st p with
      | none => rfl
      | some r => exact ih r.1

theorem dedup_survives (ps : List Packet) :
    ∀ (st st' : SMState) (k : Nat) (s : String),
      runMsgs st ps = some st' → s ∈ st.dedup.take k → k + addsCount st ps ≤ 100 →
      s ∈ st'.dedup.take (k + addsCount st ps) := by
  induction ps with
  | nil =>
      intro st st' k s hrun hmem _
      obtain rfl : st = st' := by simpa [runMsgs] using hrun
      simpa [addsCount] using hmem
  | cons p ps ih =>
      intro st st' k s hrun hmem hle
      rw [runMsgs] at hrun
      cases hstep : handleMessageUserSignal st p with
      | none => rw [hstep] at hrun; cases hrun
      | some r =>
          rw [hstep] at hrun
          by_cases hc : lruContains st.dedup p.Payload
          · have hr : r = (st, []) := by
              have := handle_contains st p hc
              rw [this] at hstep
              exact (Option.some_inj.mp hstep.symm)
            have hadds : addsCount st (p :: ps) = addsCount st ps := by
              rw [addsCount, hstep, hr]
              simp [hc]
            rw [hadds] at hle ⊢
            rw [hr] at hrun
            exact ih st st' k s hrun hmem hle
          · have hdd : r.1.dedup = (p.Payload :: st.dedup).take 100 := by
              have := handle_dedup st p r.1 r.2 (by simpa using hc) (by rw [hstep])
              rw [this, lruAdd, if_neg (by simpa [lruContains] using hc)]
            have hadds : addsCount st (p :: ps) = 1 + addsCount r.1 ps := by
              rw [addsCount, hstep]
              simp [hc]
            rw [hadds] at hle ⊢
            have hmem1 : s ∈ r.1.dedup.take (k + 1) := by
              rw [hdd, List.take_take]
              have hmin : min (k + 1) 100 = k + 1 := by omega
              rw [hmin, List.take_succ_cons]
              exact List.mem_cons_of_mem _ hmem
            have hle1 : (k + 1) + addsCount r.1 ps ≤ 100 := by omega
            have := ih r.1 st' (k + 1) s hrun hmem1 hle1
            have harith : (k + 1) + addsCount r.1 ps = k + (1 + addsCount r.1 ps) := by omega
            rwa [harith] at this

/-- C6: delivering the same payload twice produces the same SM state as
delivering it once: when at most 99 unique (cache-inserting) messages
intervene, the second arrival is still in the dedup cache, so it is
dropped before deserialization (state unchanged, nothing emitted) and the
run with the duplicate ends in exactly the state of the run without it. -/
theorem c6_dedup_idempotent (st stp st1 : SMState) (p : Packet) (ms : List Packet)
    (outs0 : List OutMsg)
    (hfresh : lruContains st.dedup p.Payload = false)
    (hp : handleMessageUserSignal st p = some (stp, outs0))
    (hms : runMsgs stp ms = some st1)
    (hadds : addsCount stp ms ≤ 99) :
    handleMessageUserSignal st1 p = some (st1, []) ∧
    runMsgs st (p :: (ms ++ [p])) = runMsgs st (p :: ms) := by
  have hdd : stp.dedup = (p.Payload :: st.dedup).take 100 := by
    rw [handle_dedup st p stp outs0 hfresh hp, lruAdd,
      if_neg (by simpa [lruContains] using hfresh)]
  have hmem1 : p.Payload ∈ stp.dedup.take 1 := by
    rw [hdd, List.take_take]
    simp
  have hs := dedup_survives ms stp st1 1 p.Payload hms hmem1 (by omega)
  have hmemfull : p.Payload ∈ st1.dedup := List.take_subset _ _ hs
  have hct : lruContains st1.dedup p.Payload = true := by
    simpa [lruContains] using hmemfull
  have hdrop := handle_contains st1 p hct
  refine ⟨hdrop, ?_⟩
  rw [runMsgs, runMsgs, hp]
  simp only
  rw [runMsgs_append, hms]
  simp only
  rw [runMsgs, hdrop]
  simp only [runMsgs]

theorem c6_dedup_idempotent_witness :
    handleMessageUserSignal
      ⟨[(5, ⟨5, .undecided, []⟩), (6, ⟨6, .undecided, []⟩)], ["b", "a"], []⟩
      ⟨"a", some ⟨.sidRequest, 42, SessionManagerUserId, 0, none, none, none⟩⟩ =
      some (⟨[(5, ⟨5, .undecided, []⟩), (6, ⟨6, .undecided, []⟩)], ["b", "a"], []⟩, []) ∧
    runMsgs ⟨[], [], [5, 6]⟩
      (⟨"a", some ⟨.sidRequest, 42, SessionManagerUserId, 0, none, none, none⟩⟩ ::
        ([⟨"b", some ⟨.sidRequest, 43, SessionManagerUserId, 0, none, none, none⟩⟩] ++
         [⟨"a", some ⟨.sidRequest, 42, SessionManagerUserId, 0, none, none, none⟩⟩])) =
    runMsgs ⟨[], [], [5, 6]⟩
      (⟨"a", some ⟨.sidRequest, 42, SessionManagerUserId, 0, none, none, none⟩⟩ ::
        [⟨"b", some ⟨.sidRequest, 43, SessionManagerUserId, 0, none, none, none⟩⟩]) :=
  c6_dedup_idempotent ⟨[], [], [5, 6]⟩
    ⟨[(5, ⟨5, .undecided, []⟩)], ["a"], [6]⟩
    ⟨[(5, ⟨5, .undecided, []⟩), (6, ⟨6, .undecided, []⟩)], ["b", "a"], []⟩
    ⟨"a", some ⟨.sidRequest, 42, SessionManagerUserId, 0, none, none, none⟩⟩
    [⟨"b", some ⟨.sidRequest, 43, SessionManagerUserId, 0, none, none, none⟩⟩]
    [mkOut 42 (NewSignal .sidCreated SessionManagerUserId 42 5)]
    (by decide) (by decide) (by decide) (by decide)

/-! ## Metrics engine lemmas -/

theorem innerScan_buf_length (u1 : UmsgStat) (fuel : Nat) :
    ∀ (q : Nat) (acc : ScanAcc), ((innerScan u1 q fuel acc).buf).length = acc.buf.length := by
  induction fuel with
  | zero => intro q acc; rfl
  | succ n ih =>
      intro q acc
      rw [innerScan]
      split
      · split
        · simp [List.length_set]
        · split
          · rw [ih]; simp [List.length_set]
          · rw [ih]
      · rw [ih]

theorem scanAcc2_buf (acc : ScanAcc) (p : Nat) : (scanAcc2 acc p).buf = acc.buf := by
  rw [scanAcc2]
  dsimp only
  split
  · rfl
  · split <;> (try split) <;> rfl

theorem scanStep_buf_length (n : Nat) (acc : ScanAcc) (p : Nat) :
    ((scanStep n acc p).buf).length = acc.buf.length := by
  rw [scanStep, innerScan_buf_length, scanAcc2_buf]

theorem foldl_scanStep_buf_length (n : Nat) (l : List Nat) :
    ∀ acc : ScanAcc, ((l.foldl (scanStep n) acc).buf).length = acc.buf.length := by
  induction l with
  | nil => intro acc; rfl
  | cons p ps ih =>
      intro acc
      rw [List.foldl_cons, ih, scanStep_buf_length]

theorem scanLoop_buf_length (n : Nat) (buf : List UmsgStat) :
    (scanLoop n buf).buf.length = buf.length := by
  rw [scanLoop, foldl_scanStep_buf_length]

/-- Reachable-state invariant of the metrics engine. -/
def MetricsInv (m : Metrics) : Prop :=
  m.pos < StatBufferSize ∧ m.stat.length = StatBufferSize

theorem process_inv (m : Metrics) (msg : UMsg) (t : Int) (h : MetricsInv m) :
    MetricsInv (Process m msg t).1 := by
  obtain ⟨hpos, hlen⟩ := h
  rw [Process]
  split
  · constructor
    · simp only
      split
      · decide
      · rename_i hn
        simp only [StatBufferSize]
        omega
    · simp only
      split
      · simp [StatBufferSize]
      · rw [scanLoop_buf_length]
        simp [List.length_set, hlen]
  · split
    · rename_i hn _
      constructor
      · simp only [StatBufferSize] at hn ⊢
        omega
      · simp [List.length_set, hlen]
    · rename_i hn _
      constructor
      · simp only [StatBufferSize] at hn ⊢
        omega
      · simp [List.length_set, hlen]

theorem runMetrics_inv (inputs : List (UMsg × Int)) :
    ∀ (m : Metrics), MetricsInv m → MetricsInv (runMetrics m inputs) := by
  induction inputs with
  | nil => intro m h; exact h
  | cons x xs ih =>
      intro m h
      obtain ⟨msg, t⟩ := x
      rw [runMetrics]
      exact ih _ (process_inv m msg t h)

theorem getD_map_range {α : Type} (f : Nat → α) (n i : Nat) (d : α) (h : i < n) :
    ((List.range n).map f).getD i d = f i := by
  rw [List.getD_eq_getElem?_getD, List.getElem?_map, List.getElem?_range h]
  rfl

/-- C3 (amended): from a fresh engine, every `Process` call writes at a
position below 120 (`pos < 120` before each call), after every window
closure `pos ≤ 20`, and when the carry-over branch runs (more than 20
samples were buffered at closure) the 20 carried samples all have
`paired = false`.  The original claim's stronger "all carried samples
have paired=false after every closure" fails when a time-triggered
closure finds at most 20 samples: the code then skips the carry-over and
leaves `paired` flags set (see the counterexample). -/
theorem c3_buffer_bounds (t0 : Int) (inputs pre suf : List (UMsg × Int))
    (hsplit : inputs = pre ++ suf) (m : Metrics) (msg : UMsg) (t : Int)
    (hc : StatBufferSize ≤ m.pos + 1 ∨ 1000000000 < t - m.lastTimestamp) :
    (runMetrics (NewMetrics t0) pre).pos < StatBufferSize ∧
    (Process m msg t).1.pos ≤ 20 ∧
    (20 < m.pos + 1 → ∀ i, i < 20 →
      ((Process m msg t).1.stat.getD i default).paired = false) := by
  refine ⟨?_, ?_, ?_⟩
  · exact (runMetrics_inv pre (NewMetrics t0)
      ⟨by simp [NewMetrics, StatBufferSize], by simp [NewMetrics]⟩).1
  · rw [Process, if_pos hc]
    simp only
    split
    · decide
    · omega
  · intro h20 i hi
    rw [Process, if_pos hc]
    simp only
    rw [if_pos h20]
    rw [getD_map_range _ _ _ _ (by simp only [StatBufferSize]; omega : i < StatBufferSize)]
    rw [if_pos hi]

theorem c3_buffer_bounds_witness :
    (runMetrics (NewMetrics 0) []).pos < StatBufferSize ∧
    (Process (NewMetrics 0) ⟨7, 5, 0, 200⟩ 2000000000).1.pos ≤ 20 ∧
    (20 < (NewMetrics 0).pos + 1 → ∀ i, i < 20 →
      ((Process (NewMetrics 0) ⟨7, 5, 0, 200⟩ 2000000000).1.stat.getD i default).paired = false) :=
  c3_buffer_bounds 0 [] [] [] rfl (NewMetrics 0) ⟨7, 5, 0, 200⟩ 2000000000
    (Or.inr (by decide))

/-- C3 counterexample to the claim as stated: two samples with equal
`tseq`, the second more than a second later, trigger a time-based window
closure with `pos = 2 ≤ 20`; the carry-over branch is skipped and the
sample at index 1 keeps `paired = true`, contradicting "every
carried-over sample at indices [0, pos) has paired = false". -/
theorem c3_counterexample :
    (1000000000 < (2000000000 : Int) -
      ((Process (NewMetrics 0) ⟨7, 5, 0, 200⟩ 0).1).lastTimestamp) ∧
    ((Process (Process (NewMetrics 0) ⟨7, 5, 0, 200⟩ 0).1 ⟨7, 5, 0, 200⟩ 2000000000).1).pos = 2 ∧
    (((Process (Process (NewMetrics 0) ⟨7, 5, 0, 200⟩ 0).1 ⟨7, 5, 0, 200⟩ 2000000000).1).stat.getD 1
        default).paired = true := by
  decide

theorem toInt16_eq_zero (x : Nat) (hx : x < 65536) : toInt16 x = 0 ↔ x = 0 := by
  unfold toInt16
  rw [Nat.mod_eq_of_lt hx]
  split <;> omega

theorem toInt16_sub16 (a b : Nat) (ha : a < 65536) (hb : b < 65536) :
    toInt16 (sub16 a b) = wrap16 (toInt16 a - toInt16 b) := by
  unfold toInt16 sub16 wrap16
  rw [Nat.mod_eq_of_lt ha, Nat.mod_eq_of_lt hb]
  have h1 : (a + 65536 - b) % 65536 < 65536 := Nat.mod_lt _ (by norm_num)
  rw [Nat.mod_eq_of_lt h1]
  split <;> split <;> split <;> omega

theorem neg16_sub16_iff (a b : Nat) (ha : a < 65536) (hb : b < 65536) :
    neg16 (sub16 a b) = true ↔ wrap16 (toInt16 a - toInt16 b) < 0 := by
  rw [← toInt16_sub16 a b ha hb]
  unfold neg16 toInt16
  have h1 : sub16 a b < 65536 := Nat.mod_lt _ (by norm_num)
  rw [Nat.mod_eq_of_lt h1, decide_eq_true_eq]
  split <;> omega

theorem pos16_sub16_iff (a b : Nat) (ha : a < 65536) (hb : b < 65536) :
    pos16 (sub16 a b) = true ↔ 0 < wrap16 (toInt16 a - toInt16 b) := by
  rw [← toInt16_sub16 a b ha hb]
  unfold pos16 toInt16
  have h1 : sub16 a b < 65536 := Nat.mod_lt _ (by norm_num)
  rw [Nat.mod_eq_of_lt h1, decide_eq_true_eq]
  split <;> omega

theorem toInt16_double_sub16 (mn mx : Nat) (hmn : mn < 65536) (hmx : mx < 65536) :
    toInt16 ((2 * sub16 mx mn) % 65536) = wrap16 (2 * wrap16 (toInt16 mx - toInt16 mn)) := by
  unfold toInt16 sub16 wrap16
  rw [Nat.mod_eq_of_lt hmn, Nat.mod_eq_of_lt hmx]
  split <;> split <;> split <;> omega

theorem packetShouldOf_correspond (mn mx : Nat) (hmn : mn < 65536) (hmx : mx < 65536) :
    (packetShouldOf mn mx : Int) = packetShouldSpec (toInt16 mn) (toInt16 mx) := by
  unfold packetShouldOf packetShouldSpec
  simp only
  have hps : (2 * sub16 mx mn) % 65536 < 65536 := Nat.mod_lt _ (by norm_num)
  have hd := toInt16_double_sub16 mn mx hmn hmx
  have hzero : (toInt16 mn = 0 ∧ toInt16 mx = 0) ↔ (mn = 0 ∧ mx = 0) := by
    rw [toInt16_eq_zero mn hmn, toInt16_eq_zero mx hmx]
  by_cases hneg : neg16 ((2 * sub16 mx mn) % 65536)
  · have hc1 : wrap16 (2 * wrap16 (toInt16 mx - toInt16 mn)) < 0 := by
      rw [← hd]
      unfold neg16 at hneg
      rw [decide_eq_true_eq] at hneg
      unfold toInt16
      rw [Nat.mod_eq_of_lt hps]
      split <;> omega
    rw [if_pos (Or.inl hneg), if_pos (Or.inl hc1)]
    rfl
  · by_cases hz : mn = 0 ∧ mx = 0
    · rw [if_pos (Or.inr hz), if_pos (Or.inr (hzero.mpr hz))]
      rfl
    · have hcond : ¬(neg16 ((2 * sub16 mx mn) % 65536) = true ∨ (mn = 0 ∧ mx = 0)) := by
        rintro (h | h)
        · exact hneg h
        · exact hz h
      have hc1 : ¬(wrap16 (2 * wrap16 (toInt16 mx - toInt16 mn)) < 0 ∨
          (toInt16 mn = 0 ∧ toInt16 mx = 0)) := by
        rintro (h | h)
        · apply hneg
          rw [← hd] at h
          unfold neg16
          rw [decide_eq_true_eq]
          unfold toInt16 at h
          rw [Nat.mod_eq_of_lt hps] at h
          revert h
          split <;> omega
        · exact hz (hzero.mp h)
      rw [if_neg hcond, if_neg hc1, ← hd]
      unfold toInt16
      rw [Nat.mod_eq_of_lt hps]
      have hnn : ¬(32768 ≤ (2 * sub16 mx mn) % 65536) := by
        intro hge
        exact hneg (by unfold neg16; rw [decide_eq_true_eq]; exact hge)
      rw [if_pos (by omega)]
      omega


theorem getD_set {α : Type} (l : List α) (i j : Nat) (a d : α) :
    (l.set i a).getD j d = if i = j ∧ i < l.length then a else l.getD j d := by
  rw [List.getD_eq_getElem?_getD, List.getD_eq_getElem?_getD, List.getElem?_set]
  by_cases hij : i = j
  · subst hij
    by_cases hl : i < l.length
    · simp [hl]
    · rw [List.getElem?_eq_none (Nat.le_of_not_lt hl)]
      simp [hl]
  · simp [hij]

theorem innerScan_minSeq_maxSeq (u1 : UmsgStat) (fuel : Nat) :
    ∀ (q : Nat) (acc : ScanAcc), (innerScan u1 q fuel acc).minSeq = acc.minSeq ∧
      (innerScan u1 q fuel acc).maxSeq = acc.maxSeq := by
  induction fuel with
  | zero => intro q acc; exact ⟨rfl, rfl⟩
  | succ n ih =>
      intro q acc
      rw [innerScan]
      split
      · split
        · exact ⟨rfl, rfl⟩
        · split
          · rw [(ih (q + 1) _).1, (ih (q + 1) _).2]; exact ⟨rfl, rfl⟩
          · exact ih (q + 1) acc
      · exact ih (q + 1) acc

theorem innerScan_tseq (u1 : UmsgStat) (fuel : Nat) :
    ∀ (q : Nat) (acc : ScanAcc) (j : Nat),
      (((innerScan u1 q fuel acc).buf.getD j default)).tseq =
        ((acc.buf.getD j default)).tseq := by
  induction fuel with
  | zero => intro q acc j; rfl
  | succ n ih =>
      intro q acc j
      rw [innerScan]
      split
      · split
        · simp only
          rw [getD_set]
          split
          · rename_i hcond
            obtain ⟨rfl, -⟩ := hcond
            rfl
          · rfl
        · split
          · rw [ih (q + 1)]
            simp only
            rw [getD_set]
            split
            · rename_i hcond
              obtain ⟨rfl, -⟩ := hcond
              rfl
            · rfl
          · exact ih (q + 1) acc j
      · exact ih (q + 1) acc j

theorem scanAcc2_minMax (acc : ScanAcc) (p : Nat) :
    ((scanAcc2 acc p).minSeq, (scanAcc2 acc p).maxSeq) =
      minMaxStepCode (acc.minSeq, acc.maxSeq) ((acc.buf.getD p default).tseq) := by
  rw [scanAcc2, minMaxStepCode]
  dsimp only
  by_cases hz : acc.minSeq = 0 ∧ acc.maxSeq = 0
  · rw [if_pos hz, if_pos hz]
  · rw [if_neg hz, if_neg hz]
    by_cases hp : pos16 (sub16 ((acc.buf.getD p default)).tseq acc.maxSeq) = true
    · rw [if_pos hp, if_pos hp]
      dsimp only
      by_cases hn : neg16 (sub16 ((acc.buf.getD p default)).tseq acc.minSeq) = true
      · rw [if_pos hn, if_pos hn]
      · rw [if_neg hn, if_neg hn]
    · rw [if_neg hp, if_neg hp]
      dsimp only
      by_cases hn : neg16 (sub16 ((acc.buf.getD p default)).tseq acc.minSeq) = true
      · rw [if_pos hn, if_pos hn]
      · rw [if_neg hn, if_neg hn]

theorem scanStep_minMax (n : Nat) (acc : ScanAcc) (p : Nat) :
    ((scanStep n acc p).minSeq, (scanStep n acc p).maxSeq) =
      minMaxStepCode (acc.minSeq, acc.maxSeq) ((acc.buf.getD p default).tseq) := by
  rw [scanStep, (innerScan_minSeq_maxSeq _ _ _ _).1, (innerScan_minSeq_maxSeq _ _ _ _).2]
  exact scanAcc2_minMax acc p

theorem scanStep_tseq (n : Nat) (acc : ScanAcc) (p j : Nat) :
    (((scanStep n acc p).buf.getD j default)).tseq = ((acc.buf.getD j default)).tseq := by
  rw [scanStep, innerScan_tseq, scanAcc2_buf]

theorem foldl_scanStep_minMax (posN : Nat) (buf0 : List UmsgStat) (l : List Nat) :
    ∀ (acc : ScanAcc),
      (∀ j, ((acc.buf.getD j default)).tseq = ((buf0.getD j default)).tseq) →
      (((l.foldl (scanStep posN) acc).minSeq, (l.foldl (scanStep posN) acc).maxSeq) =
        l.foldl (fun mm p => minMaxStepCode mm ((buf0.getD p default).tseq))
          (acc.minSeq, acc.maxSeq)) ∧
      ∀ j, (((l.foldl (scanStep posN) acc).buf.getD j default)).tseq =
        ((buf0.getD j default)).tseq := by
  induction l with
  | nil => intro acc h; exact ⟨rfl, h⟩
  | cons p ps ih =>
      intro acc h
      rw [List.foldl_cons, List.foldl_cons]
      have hstep : ((scanStep posN acc p).minSeq, (scanStep posN acc p).maxSeq) =
          minMaxStepCode (acc.minSeq, acc.maxSeq) ((buf0.getD p default).tseq) := by
        rw [scanStep_minMax, h p]
      have htseq : ∀ j, (((scanStep posN acc p).buf.getD j default)).tseq =
          ((buf0.getD j default)).tseq := fun j => by rw [scanStep_tseq, h j]
      obtain ⟨h1, h2⟩ := ih (scanStep posN acc p) htseq
      refine ⟨?_, h2⟩
      rw [h1, hstep]

theorem map_range_getD {α β : Type} (l : List α) (f : α → β) (d : α) (n : Nat)
    (hn : n ≤ l.length) :
    (List.range n).map (fun i => f (l.getD i d)) = (l.map f).take n := by
  induction n with
  | zero => simp
  | succ m ih =>
      have hm : m < l.length := by omega
      rw [List.range_succ, List.map_append, ih (by omega), List.take_succ]
      congr 1
      rw [List.getElem?_map, List.getElem?_eq_getElem hm]
      simp [List.getD_eq_getElem?_getD, List.getElem?_eq_getElem hm]

theorem minMaxStepCode_correspond (acc : Nat × Nat) (t : Nat)
    (h1 : acc.1 < 65536) (h2 : acc.2 < 65536) (ht : t < 65536) :
    ((toInt16 (minMaxStepCode acc t).1, toInt16 (minMaxStepCode acc t).2) =
      minMaxSpecStep (toInt16 acc.1, toInt16 acc.2) (toInt16 t)) ∧
    (minMaxStepCode acc t).1 < 65536 ∧ (minMaxStepCode acc t).2 < 65536 := by
  rw [minMaxStepCode, minMaxSpecStep]
  dsimp only
  by_cases hz : acc.1 = 0 ∧ acc.2 = 0
  · have hz' : toInt16 acc.1 = 0 ∧ toInt16 acc.2 = 0 := by
      rw [toInt16_eq_zero _ h1, toInt16_eq_zero _ h2]; exact hz
    rw [if_pos hz, if_pos hz']
    exact ⟨rfl, ht, ht⟩
  · have hz' : ¬(toInt16 acc.1 = 0 ∧ toInt16 acc.2 = 0) := by
      rw [toInt16_eq_zero _ h1, toInt16_eq_zero _ h2]; exact hz
    rw [if_neg hz, if_neg hz']
    have hmin := neg16_sub16_iff t acc.1 ht h1
    have hmax := pos16_sub16_iff t acc.2 ht h2
    refine ⟨?_, ?_, ?_⟩
    · dsimp only
      congr 1
      · by_cases hn : neg16 (sub16 t acc.1) = true
        · rw [if_pos hn, if_pos (hmin.mp hn)]
        · rw [if_neg hn, if_neg (fun hw => hn (hmin.mpr hw))]
      · by_cases hp : pos16 (sub16 t acc.2) = true
        · rw [if_pos hp, if_pos (hmax.mp hp)]
        · rw [if_neg hp, if_neg (fun hw => hp (hmax.mpr hw))]
    · dsimp only
      split <;> assumption
    · dsimp only
      split <;> assumption

theorem minMax_fold_correspond (ts : List Nat) :
    ∀ (acc : Nat × Nat), (∀ t ∈ ts, t < 65536) → acc.1 < 65536 → acc.2 < 65536 →
      ((toInt16 (ts.foldl minMaxStepCode acc).1, toInt16 (ts.foldl minMaxStepCode acc).2) =
        (ts.map toInt16).foldl minMaxSpecStep (toInt16 acc.1, toInt16 acc.2)) ∧
      (ts.foldl minMaxStepCode acc).1 < 65536 ∧ (ts.foldl minMaxStepCode acc).2 < 65536 := by
  induction ts with
  | nil => intro acc _ h1 h2; exact ⟨rfl, h1, h2⟩
  | cons t ts ih =>
      intro acc hts h1 h2
      rw [List.foldl_cons, List.map_cons, List.foldl_cons]
      obtain ⟨hstep, hb1, hb2⟩ := minMaxStepCode_correspond acc t h1 h2 (hts t (by simp))
      obtain ⟨hrec, hr1, hr2⟩ := ih (minMaxStepCode acc t) (fun x hx => hts x (by simp [hx])) hb1 hb2
      refine ⟨?_, hr1, hr2⟩
      rw [hrec, hstep]

/-- C7: in the window closure, `(minSeq, maxSeq)` over the buffered
samples is computed with signed-16-bit wraparound comparisons ((0,0)
meaning uninitialised, the sign of the int16 difference deciding the
ordering), and `packetShould` is `2·(maxSeq − minSeq)` computed in 16-bit
signed arithmetic without widening, set to 0 when negative or
uninitialised: the code-side pattern computation agrees with the
spec-side signed computation under `toInt16`. -/
theorem c7_seq_wraparound (posN : Nat) (buf : List UmsgStat)
    (hn : posN ≤ buf.length) (hts : ∀ s ∈ buf, s.tseq < 65536) :
    ((toInt16 (scanLoop posN buf).minSeq, toInt16 (scanLoop posN buf).maxSeq) =
      minMaxSpec (((buf.map (fun s => s.tseq)).take posN).map toInt16)) ∧
    ((packetShouldOf (scanLoop posN buf).minSeq (scanLoop posN buf).maxSeq : Int) =
      packetShouldSpec (toInt16 (scanLoop posN buf).minSeq)
        (toInt16 (scanLoop posN buf).maxSeq)) := by
  have hts' : ∀ t ∈ (buf.map (fun s => s.tseq)).take posN, t < 65536 := by
    intro t htm
    obtain ⟨s, hs, rfl⟩ := List.mem_map.mp (List.take_subset _ _ htm)
    exact hts s hs
  have hpair : ((scanLoop posN buf).minSeq, (scanLoop posN buf).maxSeq) =
      ((buf.map (fun s => s.tseq)).take posN).foldl minMaxStepCode (0, 0) := by
    rw [scanLoop]
    rw [(foldl_scanStep_minMax posN buf (List.range posN) _ (fun j => rfl)).1]
    rw [← map_range_getD buf (fun s => s.tseq) default posN hn, List.foldl_map]
  have f1 : (scanLoop posN buf).minSeq =
      (((buf.map (fun s => s.tseq)).take posN).foldl minMaxStepCode (0, 0)).1 :=
    congrArg Prod.fst hpair
  have f2 : (scanLoop posN buf).maxSeq =
      (((buf.map (fun s => s.tseq)).take posN).foldl minMaxStepCode (0, 0)).2 :=
    congrArg Prod.snd hpair
  obtain ⟨hc, hb1, hb2⟩ := minMax_fold_correspond ((buf.map (fun s => s.tseq)).take posN)
    (0, 0) hts' (by norm_num) (by norm_num)
  have hz : toInt16 0 = 0 := by decide
  constructor
  · rw [f1, f2, hc, minMaxSpec]
    dsimp only
    rw [hz]
  · rw [f1, f2]
    exact packetShouldOf_correspond _ _ hb1 hb2

theorem c7_seq_wraparound_witness :
    ((toInt16 (scanLoop 2 [⟨false, 7, 5, 200, 0⟩, ⟨false, 7, 65535, 200, 5⟩]).minSeq,
      toInt16 (scanLoop 2 [⟨false, 7, 5, 200, 0⟩, ⟨false, 7, 65535, 200, 5⟩]).maxSeq) =
      minMaxSpec ((([(⟨false, 7, 5, 200, 0⟩ : UmsgStat),
        ⟨false, 7, 65535, 200, 5⟩].map (fun s => s.tseq)).take 2).map toInt16)) ∧
    ((packetShouldOf (scanLoop 2 [⟨false, 7, 5, 200, 0⟩, ⟨false, 7, 65535, 200, 5⟩]).minSeq
        (scanLoop 2 [⟨false, 7, 5, 200, 0⟩, ⟨false, 7, 65535, 200, 5⟩]).maxSeq : Int) =
      packetShouldSpec
        (toInt16 (scanLoop 2 [⟨false, 7, 5, 200, 0⟩, ⟨false, 7, 65535, 200, 5⟩]).minSeq)
        (toInt16 (scanLoop 2 [⟨false, 7, 5, 200, 0⟩, ⟨false, 7, 65535, 200, 5⟩]).maxSeq)) :=
  c7_seq_wraparound 2 [⟨false, 7, 5, 200, 0⟩, ⟨false, 7, 65535, 200, 5⟩]
    (by decide) (by decide)
